import Mathlib

/-!
Verification development for the apiGrupos backend: a shallow embedding of
the pagination resolver (`utils/pagination.go`), the entity repositories and
the aggregation engine (`repository/grupo.go`, `repository/investigador.go`),
the transactional composite writer and the group update handler
(`controllers/grupo.go`), together with theorems settling the specified
properties.

Machine integers are modelled as `Nat`/`Int` (row counts and ids are small
and never overflow in the source's domain).  SQL tables are lists of rows;
SQL queries are translated clause by clause into list operations.
-/

namespace ApiGrupos

/-! ## Data model (src/models, src/database/schema.sql) -/

/-- A calendar date, modelling the SQL `DATE` / Go `time.Time` values used by
`fechaRegistro`.  Only the year takes part in any query
(`EXTRACT(YEAR FROM g.fechaRegistro)`). -/
structure Date where
  year : Nat
  month : Nat
  day : Nat
deriving DecidableEq

/-- Row of table `Investigador` (models/investigador.go).  Timestamps are
omitted: no claim observes them. -/
structure Investigador where
  idInvestigador : Nat
  nombre : String
  apellido : String
deriving DecidableEq

/-- Row of table `Grupo` (models/grupo.go).  `archivo` is the nullable stored
attachment identifier. -/
structure Grupo where
  idGrupo : Nat
  nombre : String
  numeroResolucion : String
  lineaInvestigacion : String
  tipoInvestigacion : String
  fechaRegistro : Date
  archivo : Option String
deriving DecidableEq

/-- Row of table `Grupo_Investigador` (the group-investigator link, carrying
a role). -/
structure DetalleGrupoInvestigador where
  idDetalle : Nat
  idGrupo : Nat
  idInvestigador : Nat
  rol : String
deriving DecidableEq

/-- The relational store: one list per table. -/
structure DB where
  grupos : List Grupo
  investigadores : List Investigador
  links : List DetalleGrupoInvestigador
deriving DecidableEq

/-- An investigator together with their role in a specific group
(models.InvestigadorConRol). -/
structure InvestigadorConRol where
  id : Nat
  nombre : String
  apellido : String
  rol : String
deriving DecidableEq

/-- A group with its collapsed investigator list
(models.GrupoWithInvestigadores). -/
structure GrupoWithInvestigadores where
  grupo : Grupo
  investigadores : List InvestigadorConRol
deriving DecidableEq

/-- Pagination metadata (models.PaginationMetadata).  `currentPage` and
`limit` echo the resolved Go ints. -/
structure PaginationMetadata where
  totalItems : Nat
  totalPages : Nat
  currentPage : Int
  limit : Int
deriving DecidableEq

/-- A paginated response (models.PaginatedResponse) specialised to the group
listing payload. -/
structure PaginatedResponse where
  data : List GrupoWithInvestigadores
  pagination : PaginationMetadata
deriving DecidableEq

/-- Well-formedness of a database state: primary keys are unique.  The
schema's `SERIAL PRIMARY KEY` guarantees this for every reachable store. -/
def DB.WF (db : DB) : Prop :=
  (db.grupos.map Grupo.idGrupo).Nodup ∧
  (db.investigadores.map Investigador.idInvestigador).Nodup

instance (db : DB) : Decidable db.WF := by
  unfold DB.WF
  infer_instance

/-! ## Pagination resolver (src/utils/pagination.go, GetPaginationParams) -/

/-- Value of a decimal digit character, `none` for anything else. -/
def digitVal? (c : Char) : Option Nat :=
  if '0' ≤ c ∧ c ≤ '9' then some (c.toNat - '0'.toNat) else none

/-- Accumulates the value of a digit string; fails on a non-digit. -/
def digitsVal? : List Char → Nat → Option Nat
  | [], acc => some acc
  | c :: cs, acc =>
    match digitVal? c with
    | some d => digitsVal? cs (10 * acc + d)
    | none => none

/-- Models Go `strconv.Atoi`: an optional sign followed by one or more
decimal digits; anything else is a parse error (`none`). -/
def atoi? (s : String) : Option Int :=
  match s.data with
  | [] => none
  | '+' :: cs => if cs = [] then none else (digitsVal? cs 0).map (Int.ofNat ·)
  | '-' :: cs => if cs = [] then none else (digitsVal? cs 0).map (fun n => -(Int.ofNat n))
  | cs => (digitsVal? cs 0).map (Int.ofNat ·)

/-- GetPaginationParams (utils/pagination.go lines 10-27): parse `page`
(default 1 on failure or < 1), parse `limit` (default 6 on failure or < 1),
then clamp `limit` to 100.  An absent query parameter arrives as `""`. -/
def GetPaginationParams (pageStr limitStr : String) : Int × Int :=
  let page : Int :=
    match atoi? pageStr with
    | some p => if p < 1 then 1 else p
    | none => 1
  let limit : Int :=
    match atoi? limitStr with
    | some l => if l < 1 then 6 else l
    | none => 6
  let limit := if limit > 100 then 100 else limit
  (page, limit)

/-! ## Aggregation engine: search filters (repository SearchGrupos, part_005) -/

/-- Whether the first character list is a prefix of the second. -/
def isPrefixOfb : List Char → List Char → Bool
  | [], _ => true
  | _ :: _, [] => false
  | c :: cs, d :: ds => c.toNat == d.toNat && isPrefixOfb cs ds

/-- Whether `needle` occurs as a contiguous sublist of the second argument
(the empty needle always occurs). -/
def hasSubstr (needle : List Char) : List Char → Bool
  | [] => needle.isEmpty
  | d :: ds => isPrefixOfb needle (d :: ds) || hasSubstr needle ds

/-- Models `unaccent(col) ILIKE unaccent('%' || pat || '%')`: case-insensitive
substring containment.  Accent folding is abstracted as lower-casing; an
empty pattern matches every string (`ILIKE '%%'`); the repository's patterns
contain no `%`/`_` wildcards of their own. -/
def ilikeContains (pat s : String) : Bool :=
  hasSubstr (pat.data.map Char.toLower) (s.data.map Char.toLower)

/-- Byte-order strict comparison on strings (models the store's collation),
by structural recursion so that concrete stores evaluate. -/
def charListLtb : List Char → List Char → Bool
  | [], [] => false
  | [], _ :: _ => true
  | _ :: _, [] => false
  | c :: cs, d :: ds =>
    if c.toNat < d.toNat then true
    else if d.toNat < c.toNat then false
    else charListLtb cs ds

/-- Strict order on strings used by every ORDER BY on a text column. -/
def strLtb (a b : String) : Bool := charListLtb a.data b.data

/-- The five optional search filters of `SearchGrupos` (empty string =
filter absent).  `year` is the raw `año` query parameter. -/
structure Filters where
  grupo : String
  investigador : String
  year : String
  lineaInvestigacion : String
  tipoInvestigacion : String
deriving DecidableEq

/-- A well-formed filter set: the raw year parameter, when present, is a
decimal number.  (A non-numeric year makes the SQL comparison
`EXTRACT(YEAR FROM g.fechaRegistro) = $n` fail at runtime; the claims range
over queries that execute.) -/
def Filters.WF (f : Filters) : Prop :=
  f.year = "" ∨ (atoi? f.year).isSome

/-- One row of the `grupo LEFT JOIN Grupo_Investigador LEFT JOIN
investigador` result set: the group columns plus the nullable link and
investigator columns. -/
structure Row where
  g : Grupo
  link : Option (DetalleGrupoInvestigador × Option Investigador)
deriving DecidableEq

/-- The scanned nullable `i.idInvestigador` column of a row. -/
def Row.invId? (r : Row) : Option Nat :=
  match r.link with
  | some (_, some i) => some i.idInvestigador
  | _ => none

/-- The `InvestigadorConRol` entry appended by the row-collapse loops when
`invID.Valid` holds: investigator columns plus the link's `rol`. -/
def Row.entry? (r : Row) : Option InvestigadorConRol :=
  match r.link with
  | some (l, some i) => some ⟨i.idInvestigador, i.nombre, i.apellido, l.rol⟩
  | _ => none

/-- Rows of the left-join chain contributed by one group: one row per link
(paired with the matching investigator rows, or a null investigator), or a
single all-null row when the group has no links. -/
def rowsOfGrupo (db : DB) (g : Grupo) : List Row :=
  let ls := db.links.filter (fun l => l.idGrupo == g.idGrupo)
  if ls.isEmpty then [⟨g, none⟩]
  else ls.flatMap (fun l =>
    let is := db.investigadores.filter (fun i => i.idInvestigador == l.idInvestigador)
    if is.isEmpty then [⟨g, some (l, none)⟩]
    else is.map (fun i => ⟨g, some (l, some i)⟩))

/-- The full `grupo g LEFT JOIN Grupo_Investigador dgi LEFT JOIN
investigador i` result set. -/
def leftJoinRows (db : DB) : List Row :=
  db.grupos.flatMap (rowsOfGrupo db)

/-- The dynamically built WHERE clause of `SearchGrupos` evaluated on one
join row; absent filters are skipped, a comparison against a null
investigator column is not satisfied (SQL three-valued logic filters the row
out). -/
def rowMatches (f : Filters) (r : Row) : Bool :=
  (f.grupo == "" || ilikeContains f.grupo r.g.nombre) &&
  (f.investigador == "" ||
    (match r.link with
     | some (_, some i) => ilikeContains f.investigador (i.nombre ++ " " ++ i.apellido)
     | _ => false)) &&
  (f.year == "" || atoi? f.year == some (Int.ofNat r.g.fechaRegistro.year)) &&
  (f.lineaInvestigacion == "" || ilikeContains f.lineaInvestigacion r.g.lineaInvestigacion) &&
  (f.tipoInvestigacion == "" || ilikeContains f.tipoInvestigacion r.g.tipoInvestigacion)

/-- CTE `FilteredGroups`: `SELECT DISTINCT g.idGrupo` over the filtered join
rows (order immaterial; `List.dedup` realises DISTINCT). -/
def searchFilteredIds (db : DB) (f : Filters) : List Nat :=
  (((leftJoinRows db).filter (rowMatches f)).map (fun r => r.g.idGrupo)).dedup

/-- CTE `PaginatedGroupIDs`: the filtered ids `ORDER BY idGrupo` then
`LIMIT limit OFFSET offset`. -/
def searchPageIds (db : DB) (f : Filters) (limit offset : Nat) : List Nat :=
  ((List.insertionSort (· ≤ ·) (searchFilteredIds db f)).drop offset).take limit

/-! ## Aggregation engine: row ordering and collapse -/

/-- SQL ascending order on a nullable column with NULLS LAST (the Postgres
default for ASC). -/
def optNatLEb : Option Nat → Option Nat → Bool
  | some a, some b => a ≤ b
  | some _, none => true
  | none, some _ => false
  | none, none => true

/-- Data-query ordering of `SearchGrupos`:
`ORDER BY g.idGrupo, i.idInvestigador`. -/
def RowLE (r1 r2 : Row) : Prop :=
  (r1.g.idGrupo < r2.g.idGrupo ||
    (r1.g.idGrupo == r2.g.idGrupo && optNatLEb r1.invId? r2.invId?)) = true

instance : DecidableRel RowLE := fun _ _ => instDecidableEqBool _ _

/-- Keep-first deduplication by a `Nat` key; `dedupByKey (fun a => a)`
realises first-occurrence DISTINCT and `dedupByKey InvestigadorConRol.id`
the per-group dedup guard of `GetAllGruposWithDetails`. -/
def dedupByKey (key : α → Nat) : List α → List α
  | [] => []
  | a :: l => a :: dedupByKey key (l.filter (fun b => key b ≠ key a))
termination_by l => l.length
decreasing_by
  simp only [List.length_cons]
  exact Nat.lt_succ_of_le (List.length_filter_le _ _)

/-- The investigator list the collapse loop accumulates for one group, from
the rows of that group in order: one entry per row with a non-null
investigator id; `GetAllGruposWithDetails` (dedupe = true) additionally
skips an entry whose investigator id was already appended. -/
def entrySpec (dedupe : Bool) (rows : List Row) : List InvestigadorConRol :=
  if dedupe then dedupByKey InvestigadorConRol.id (rows.filterMap Row.entry?)
  else rows.filterMap Row.entry?

/-- One step of the row-collapse loops shared by `SearchGrupos`
(dedupe = false, lines 182-225 of part_005) and `GetAllGruposWithDetails`
(dedupe = true, lines 419-469): on first encounter of a group id start a new
`GrupoWithInvestigadores` with an empty list, then, if the row's
investigator id is non-null, append the investigator+role entry to that
group's list (subject to the dedup guard when dedupe is set). -/
def addRow (dedupe : Bool) (acc : List GrupoWithInvestigadores) (r : Row) :
    List GrupoWithInvestigadores :=
  let gid := r.g.idGrupo
  let acc :=
    if acc.any (fun gw => gw.grupo.idGrupo == gid) then acc
    else acc ++ [⟨r.g, []⟩]
  match r.entry? with
  | none => acc
  | some e =>
    acc.map (fun gw =>
      if gw.grupo.idGrupo == gid then
        if dedupe && gw.investigadores.any (fun x => x.id == e.id) then gw
        else { gw with investigadores := gw.investigadores ++ [e] }
      else gw)

/-- The full row-collapse loop: iterate the detail rows in order,
maintaining first-seen group order. -/
def collapseRows (dedupe : Bool) (rows : List Row) : List GrupoWithInvestigadores :=
  rows.foldl (addRow dedupe) []

/-- Detail query of `SearchGrupos`: join rows restricted to the paginated
group ids, `ORDER BY g.idGrupo, i.idInvestigador`.  Its WHERE clause carries
no search filter: a qualifying group contributes all of its join rows. -/
def searchDetailRows (db : DB) (ids : List Nat) : List Row :=
  List.insertionSort RowLE ((leftJoinRows db).filter (fun r => ids.contains r.g.idGrupo))

/-- SearchGrupos (part_005 lines 86-238): count the distinct matching group
ids; if zero, short-circuit with an empty page; otherwise paginate the
sorted ids, fetch the detail rows for exactly those ids and collapse them
(without any per-group dedup guard).  Returns (items, totalItems). -/
def SearchGrupos (db : DB) (f : Filters) (limit offset : Nat) :
    List GrupoWithInvestigadores × Nat :=
  let totalItems := (searchFilteredIds db f).length
  if totalItems = 0 then ([], 0)
  else
    let rows := searchDetailRows db (searchPageIds db f limit offset)
    (collapseRows false rows, totalItems)

/-! ## Aggregation engine: plain listing (GetAllGruposWithDetails) -/

/-- `ORDER BY nombre, idGrupo` on groups (byte-wise string order models the
store collation). -/
def GrupoLE (g1 g2 : Grupo) : Prop :=
  (strLtb g1.nombre g2.nombre ||
    (g1.nombre == g2.nombre && g1.idGrupo ≤ g2.idGrupo)) = true

instance : DecidableRel GrupoLE := fun _ _ => instDecidableEqBool _ _

/-- SQL ascending order on a nullable string column with NULLS LAST. -/
def optStrLEb : Option String → Option String → Bool
  | some a, some b => strLtb a b || a == b
  | some _, none => true
  | none, some _ => false
  | none, none => true

/-- The scanned nullable `i.apellido` column of a row. -/
def Row.invApellido? (r : Row) : Option String :=
  match r.link with
  | some (_, some i) => some i.apellido
  | _ => none

/-- The scanned nullable `i.nombre` column of a row. -/
def Row.invNombre? (r : Row) : Option String :=
  match r.link with
  | some (_, some i) => some i.nombre
  | _ => none

/-- SQL ascending strict order on a nullable string column, NULLS LAST. -/
def optStrLTb : Option String → Option String → Bool
  | some a, some b => strLtb a b
  | some _, none => true
  | none, _ => false

/-- Detail-query ordering of `GetAllGruposWithDetails`:
`ORDER BY g.nombre, g.idGrupo, invApellido, invNombre`. -/
def RowLE2 (r1 r2 : Row) : Prop :=
  (strLtb r1.g.nombre r2.g.nombre ||
    (r1.g.nombre == r2.g.nombre &&
      (r1.g.idGrupo < r2.g.idGrupo ||
        (r1.g.idGrupo == r2.g.idGrupo &&
          (optStrLTb r1.invApellido? r2.invApellido? ||
            (r1.invApellido? == r2.invApellido? &&
              optStrLEb r1.invNombre? r2.invNombre?)))))) = true

instance : DecidableRel RowLE2 := fun _ _ => instDecidableEqBool _ _

/-- GetAllGruposWithDetails (part_005 lines 350-485): count all groups
(`SELECT COUNT(*) FROM grupo`); if zero, short-circuit; fetch the page's
group ids (`ORDER BY nombre, idGrupo LIMIT OFFSET`); if the page is empty,
return it with the total; otherwise fetch the detail rows for those ids,
collapse them with the per-group dedup-by-investigator-id guard, and emit
the collapsed groups following the paginated id order. -/
def GetAllGruposWithDetails (db : DB) (limit offset : Nat) :
    List GrupoWithInvestigadores × Nat :=
  let totalItems := db.grupos.length
  if totalItems = 0 then ([], 0)
  else
    let groupIDOrder :=
      ((((List.insertionSort GrupoLE db.grupos).map Grupo.idGrupo).drop offset).take limit)
    if groupIDOrder.isEmpty then ([], totalItems)
    else
      let rows := List.insertionSort RowLE2
        ((leftJoinRows db).filter (fun r => groupIDOrder.contains r.g.idGrupo))
      let collapsed := collapseRows true rows
      (groupIDOrder.filterMap
        (fun id => collapsed.find? (fun gw => gw.grupo.idGrupo == id)), totalItems)

/-! ## Attachment reference resolver (controllers/grupo.go, constructDriveLink) -/

/-- constructDriveLink (controllers/grupo.go lines 83-91): a non-null,
non-empty stored identifier resolves to the public Drive view URL, anything
else to null. -/
def constructDriveLink (fileID : Option String) : Option String :=
  match fileID with
  | some f =>
    if f ≠ "" then some ("https://drive.google.com/file/d/" ++ f ++ "/view")
    else none
  | none => none

/-! ## Listing/search handler (controllers/grupo.go, GetGruposHandler) -/

/-- The raw query-string parameters the handler reads; an absent parameter
arrives as `""`.  `year` carries the `año` parameter. -/
structure QueryParams where
  grupo : String
  investigador : String
  year : String
  lineaInvestigacion : String
  tipoInvestigacion : String
  page : String
  limit : String
deriving DecidableEq

/-- Pagination metadata computed by every listing handler (grupo.go lines
238-248): `totalPages` is 0 when `totalItems` is 0 and otherwise
`int(math.Ceil(float64(totalItems)/float64(limit)))`, modelled as exact
natural ceiling division `(totalItems + limit - 1) / limit` (the float64
division of these counts rounds to the same ceiling). -/
def paginationMeta (totalItems : Nat) (limit page : Int) : PaginationMetadata :=
  { totalItems := totalItems
    totalPages := if totalItems > 0 then (totalItems + limit.toNat - 1) / limit.toNat else 0
    currentPage := page
    limit := limit }

/-- GetGruposHandler (grupo.go lines 197-259): resolve pagination, choose
`SearchGrupos` when any search parameter is present and
`GetAllGruposWithDetails` otherwise, rewrite each stored attachment
identifier to its public Drive link, and wrap the page in the pagination
metadata. -/
def GetGruposHandler (db : DB) (q : QueryParams) : PaginatedResponse :=
  let pl := GetPaginationParams q.page q.limit
  let page := pl.1
  let limit := pl.2
  let offset := (page - 1) * limit
  let isSearch := q.grupo != "" || q.investigador != "" || q.year != "" ||
    q.lineaInvestigacion != "" || q.tipoInvestigacion != ""
  let res :=
    if isSearch then
      SearchGrupos db ⟨q.grupo, q.investigador, q.year, q.lineaInvestigacion, q.tipoInvestigacion⟩
        limit.toNat offset.toNat
    else
      GetAllGruposWithDetails db limit.toNat offset.toNat
  { data := res.1.map (fun gw =>
      { gw with grupo := { gw.grupo with archivo := constructDriveLink gw.grupo.archivo } })
    pagination := paginationMeta res.2 limit page }

/-! ## Query traces: which SQL statements each aggregation issues -/

/-- The kinds of SQL statements the two aggregation functions issue. -/
inductive SqlQuery
  | countQ
  | pageIdsQ
  | detailQ
deriving DecidableEq

/-- The statements `SearchGrupos` issues, mirroring its control flow: the
count query always, the detail query only when the count is non-zero. -/
def SearchGruposQueries (db : DB) (f : Filters) : List SqlQuery :=
  let totalItems := (searchFilteredIds db f).length
  if totalItems = 0 then [.countQ]
  else [.countQ, .detailQ]

/-- The statements `GetAllGruposWithDetails` issues, mirroring its control
flow: count, then the page-id query unless the count is zero, then the
detail query unless the page is empty. -/
def GetAllGruposWithDetailsQueries (db : DB) (limit offset : Nat) : List SqlQuery :=
  let totalItems := db.grupos.length
  if totalItems = 0 then [.countQ]
  else
    let groupIDOrder :=
      ((((List.insertionSort GrupoLE db.grupos).map Grupo.idGrupo).drop offset).take limit)
    if groupIDOrder.isEmpty then [.countQ, .pageIdsQ]
    else [.countQ, .pageIdsQ, .detailQ]

/-! ## Entity repositories: fetch by id (part_005 GetGrupoByID, part_003
GetInvestigadorByID) -/

/-- Outcome of `QueryRow(...).Scan(...)`: a row, `sql.ErrNoRows`, or another
store error. -/
inductive QueryRowResult (α : Type)
  | row (a : α)
  | errNoRows
  | errOther (msg : String)
deriving DecidableEq

/-- The single-row query `SELECT ... FROM grupo WHERE idGrupo = $1`.
`fault` injects a store failure (connection loss, syntax error, ...). -/
def queryRowGrupoByID (db : DB) (fault : Option String) (id : Nat) : QueryRowResult Grupo :=
  match fault with
  | some m => .errOther m
  | none =>
    match db.grupos.find? (fun g => g.idGrupo == id) with
    | some g => .row g
    | none => .errNoRows

/-- GetGrupoByID (part_005 lines 44-55): `sql.ErrNoRows` becomes the
distinct not-found signal `(nil, nil)`, any other store error is wrapped and
surfaced. -/
def GetGrupoByID (db : DB) (fault : Option String) (id : Nat) :
    Except String (Option Grupo) :=
  match queryRowGrupoByID db fault id with
  | .row g => .ok (some g)
  | .errNoRows => .ok none
  | .errOther m => .error ("error getting group by ID: " ++ m)

/-- The single-row query `SELECT ... FROM investigador WHERE
idInvestigador = $1` with fault injection. -/
def queryRowInvestigadorByID (db : DB) (fault : Option String) (id : Nat) :
    QueryRowResult Investigador :=
  match fault with
  | some m => .errOther m
  | none =>
    match db.investigadores.find? (fun i => i.idInvestigador == id) with
    | some i => .row i
    | none => .errNoRows

/-- GetInvestigadorByID (part_003 lines 43-54): same nil-not-found contract
as `GetGrupoByID`. -/
def GetInvestigadorByID (db : DB) (fault : Option String) (id : Nat) :
    Except String (Option Investigador) :=
  match queryRowInvestigadorByID db fault id with
  | .row i => .ok (some i)
  | .errNoRows => .ok none
  | .errOther m => .error ("error getting investigator by ID: " ++ m)

/-! ## Transactional composite writer (controllers/grupo.go,
CreateGrupoWithDetailsHandler, lines 589-667) -/

/-- Outcome of one SQL insert inside the transaction: success, an ordinary
error, or a Go panic unwinding through the handler. -/
inductive ExecResult
  | success
  | failure
  | panicked
deriving DecidableEq

/-- Fault injection for the composite create: the result of the group
insert and of each relationship insert (by position in the request list). -/
structure TxFaults where
  groupInsert : ExecResult
  detailInsert : Nat → ExecResult

/-- The JSON request body: the group payload plus (idInvestigador,
tipoRelacion) pairs. -/
structure CreateReq where
  nombre : String
  numeroResolucion : String
  lineaInvestigacion : String
  tipoInvestigacion : String
  fechaRegistro : Date
  archivo : Option String
  investigadores : List (Nat × String)

/-- What the handler run produces besides the final store state: the 201
response echoing the created group (and only the group), a 500 response
after rollback, or a propagated panic (after the deferred rollback). -/
inductive TxOutcome
  | created (g : Grupo)
  | serverError
  | panicked
deriving DecidableEq

/-- The `RETURNING idGrupo` generated key: successor of the largest existing
group id (models the SERIAL sequence on a fresh store). -/
def nextGrupoId (db : DB) : Nat :=
  (db.grupos.map Grupo.idGrupo).foldr max 0 + 1

/-- Generated key for a relationship row. -/
def nextDetalleId (db : DB) : Nat :=
  (db.links.map DetalleGrupoInvestigador.idDetalle).foldr max 0 + 1

/-- The relationship-insert loop inside the transaction (grupo.go lines
646-655): insert each pair in order; the first non-success aborts the loop.
`tx` is the uncommitted transaction state. -/
def insertDetalles (faults : TxFaults) (gid : Nat) :
    Nat → DB → List (Nat × String) → Option DB × Bool
  | _, tx, [] => (some tx, false)
  | i, tx, inv :: rest =>
    match faults.detailInsert i with
    | .success =>
      insertDetalles faults gid (i + 1)
        { tx with links := tx.links ++ [⟨nextDetalleId tx, gid, inv.1, inv.2⟩] } rest
    | .failure => (none, false)
    | .panicked => (none, true)

/-- CreateGrupoWithDetailsHandler: open a transaction, insert the group
capturing the generated id, insert every relationship row, and let the
deferred function commit on success and roll back on error or panic
(re-panicking after the rollback).  Commit makes the transaction state the
new store state; rollback discards it.  The 201 response echoes the created
group with its generated id. -/
def CreateGrupoWithDetailsHandler (db : DB) (req : CreateReq) (faults : TxFaults) :
    DB × TxOutcome :=
  match faults.groupInsert with
  | .failure => (db, .serverError)
  | .panicked => (db, .panicked)
  | .success =>
    let gid := nextGrupoId db
    let g : Grupo :=
      { idGrupo := gid
        nombre := req.nombre
        numeroResolucion := req.numeroResolucion
        lineaInvestigacion := req.lineaInvestigacion
        tipoInvestigacion := req.tipoInvestigacion
        fechaRegistro := req.fechaRegistro
        archivo := req.archivo }
    let tx1 : DB := { db with grupos := db.grupos ++ [g] }
    match insertDetalles faults gid 0 tx1 req.investigadores with
    | (some txFinal, _) => (txFinal, .created g)
    | (none, false) => (db, .serverError)
    | (none, true) => (db, .panicked)

/-! ## Group update with attachment replace (controllers/grupo.go,
UpdateGrupoHandler, lines 366-482; the local-disk variant at lines 1027-1120
has the same file-handling structure) -/

/-- The attachment service's stored-object set (Google Drive file ids, or
paths for the local-disk variant). -/
structure FileStore where
  files : List String
deriving DecidableEq

/-- Fault injection for the update path: the `UPDATE grupo` statement, the
defensive removal of the new attachment, and the post-update removal of the
old attachment. -/
structure UpdateFaults where
  updateGrupoFails : Bool
  removeNewFails : Bool
  removeOldFails : Bool
deriving DecidableEq

/-- The raw `fechaRegistro` form field: absent, present but unparsable, or a
valid `2006-01-02` date. -/
inductive DateField
  | empty
  | malformed
  | valid (d : Date)
deriving DecidableEq

/-- The multipart update form: text fields (empty means keep the stored
value) and the optional uploaded file, identified by the unique name the
attachment service would store it under. -/
structure UpdateForm where
  nombre : String
  numeroResolucion : String
  lineaInvestigacion : String
  tipoInvestigacion : String
  fechaRegistro : DateField
  upload : Option String
deriving DecidableEq

/-- The HTTP outcome of the update handler. -/
inductive UpdateOutcome
  | ok (g : Grupo)
  | badRequest
  | notFound
  | serverError
deriving DecidableEq

/-- removeFile (grupo.go lines 169-193): a nil or empty identifier is a
no-op success; deleting an absent object is also success; `fault` injects a
service failure. -/
def removeFile (fs : FileStore) (fault : Bool) (fid : Option String) :
    FileStore × Bool :=
  match fid with
  | none => (fs, true)
  | some f =>
    if f = "" then (fs, true)
    else if fault then (fs, false)
    else ({ files := fs.files.filter (fun x => x ≠ f) }, true)

/-- UpdateGrupoHandler: fetch the existing group (404 when absent), store
the uploaded file if any, fall back to stored values for empty text/date
fields, point `archivo` at the new file when one was uploaded (marking a
differing old identifier for deletion), run `UPDATE grupo`; on update
failure remove the new file (error ignored) and answer 500; on success
remove the marked old file (failure only logged) and answer 200 echoing the
updated group. -/
def UpdateGrupoHandler (db : DB) (fs : FileStore) (id : Nat) (form : UpdateForm)
    (faults : UpdateFaults) : DB × FileStore × UpdateOutcome :=
  match GetGrupoByID db none id with
  | .error _ => (db, fs, .serverError)
  | .ok none => (db, fs, .notFound)
  | .ok (some existingGrupo) =>
    let fs : FileStore :=
      match form.upload with
      | some f => { files := fs.files ++ [f] }
      | none => fs
    let newFileID := form.upload
    match form.fechaRegistro with
    | .malformed => (db, (removeFile fs faults.removeNewFails newFileID).1, .badRequest)
    | df =>
      let updatedGrupo : Grupo :=
        { idGrupo := id
          nombre := if form.nombre = "" then existingGrupo.nombre else form.nombre
          numeroResolucion :=
            if form.numeroResolucion = "" then existingGrupo.numeroResolucion
            else form.numeroResolucion
          lineaInvestigacion :=
            if form.lineaInvestigacion = "" then existingGrupo.lineaInvestigacion
            else form.lineaInvestigacion
          tipoInvestigacion :=
            if form.tipoInvestigacion = "" then existingGrupo.tipoInvestigacion
            else form.tipoInvestigacion
          fechaRegistro :=
            match df with
            | .valid d => d
            | _ => existingGrupo.fechaRegistro
          archivo :=
            match newFileID with
            | some nf => some nf
            | none => existingGrupo.archivo }
      let fileIDToDelete : Option String :=
        match newFileID with
        | some nf =>
          match existingGrupo.archivo with
          | some old => if old ≠ "" ∧ old ≠ nf then some old else none
          | none => none
        | none => none
      if faults.updateGrupoFails then
        (db, (removeFile fs faults.removeNewFails newFileID).1, .serverError)
      else
        let db : DB :=
          { db with grupos := db.grupos.map (fun g =>
              if g.idGrupo == id then updatedGrupo else g) }
        let fs :=
          match fileIDToDelete with
          | some old => (removeFile fs faults.removeOldFails (some old)).1
          | none => fs
        (db, fs, .ok updatedGrupo)

/-! ## Spec-side definitions (for refinement statements) -/

/-- Modelled from the spec: a group satisfies the active filters when its
name, registration year, research line and research type pass their
substring/exact checks and, when the investigator filter is active, some
linked investigator's full name contains the filter value.  This definition
follows the spec's words; the theorems compare it with the SQL pipeline. -/
def grupoSatisfies (db : DB) (f : Filters) (g : Grupo) : Bool :=
  (f.grupo == "" || ilikeContains f.grupo g.nombre) &&
  (f.investigador == "" ||
    db.links.any (fun l => l.idGrupo == g.idGrupo &&
      db.investigadores.any (fun i => i.idInvestigador == l.idInvestigador &&
        ilikeContains f.investigador (i.nombre ++ " " ++ i.apellido)))) &&
  (f.year == "" || atoi? f.year == some (Int.ofNat g.fechaRegistro.year)) &&
  (f.lineaInvestigacion == "" || ilikeContains f.lineaInvestigacion g.lineaInvestigacion) &&
  (f.tipoInvestigacion == "" || ilikeContains f.tipoInvestigacion g.tipoInvestigacion)

/-- All investigator+role entries of one group, straight from the link and
investigator tables (every link row paired with every matching investigator
row): the complete relationship list a returned group must carry. -/
def fullEntries (db : DB) (gid : Nat) : List InvestigadorConRol :=
  (db.links.filter (fun l => l.idGrupo == gid)).flatMap (fun l =>
    (db.investigadores.filter (fun i => i.idInvestigador == l.idInvestigador)).map
      (fun i => ⟨i.idInvestigador, i.nombre, i.apellido, l.rol⟩))

/-- The link rows of a group whose investigator exists (these are exactly
the rows that contribute an entry to the collapsed output). -/
def linkRowsWithInv (db : DB) (gid : Nat) : List DetalleGrupoInvestigador :=
  db.links.filter (fun l => l.idGrupo == gid &&
    db.investigadores.any (fun i => i.idInvestigador == l.idInvestigador))

/-! ## Concrete stores used by witnesses and counterexamples -/

/-- The empty store. -/
def emptyDB : DB := ⟨[], [], []⟩

/-- A store whose single group is linked twice to the same investigator
(the schema does not forbid duplicate (group, investigator) pairs). -/
def dbDupLink : DB :=
  ⟨[⟨1, "Grupo Uno", "R-1", "Linea A", "Aplicada", ⟨2024, 1, 1⟩, none⟩],
   [⟨1, "Ana", "Lopez"⟩],
   [⟨1, 1, 1, "Coordinador"⟩, ⟨2, 1, 1, "Integrante"⟩]⟩

/-- The spec's scenario store: group A with investigators X ("Ana Lopez")
and Y, group B with none, group C with Z. -/
def dbScenario : DB :=
  ⟨[⟨1, "A", "R-1", "Linea A", "Aplicada", ⟨2024, 1, 1⟩, none⟩,
    ⟨2, "B", "R-2", "Linea B", "Basica", ⟨2023, 5, 5⟩, none⟩,
    ⟨3, "C", "R-3", "Linea C", "Basica", ⟨2022, 5, 5⟩, none⟩],
   [⟨1, "Ana", "Lopez"⟩, ⟨2, "Juan", "Perez"⟩, ⟨3, "Zoe", "Diaz"⟩],
   [⟨1, 1, 1, "Coordinador"⟩, ⟨2, 1, 2, "Integrante"⟩, ⟨3, 3, 3, "Coordinador"⟩]⟩

/-- Filters with every field absent. -/
def noFilters : Filters := ⟨"", "", "", "", ""⟩

/-- A filter on the group name only. -/
def grupoFilter (s : String) : Filters := ⟨s, "", "", "", ""⟩

/-- A filter on the investigator name only. -/
def investigadorFilter (s : String) : Filters := ⟨"", s, "", "", ""⟩

/-- A store whose single group carries the attachment "oldfile". -/
def dbWithFile : DB :=
  ⟨[⟨1, "Grupo Uno", "R-1", "Linea A", "Aplicada", ⟨2024, 1, 1⟩, some "oldfile"⟩],
   [], []⟩

/-- An attachment store holding only "oldfile". -/
def fsWithOld : FileStore := ⟨["oldfile"]⟩

/-- An update form uploading "newfile" and changing no text field. -/
def formUploadNew : UpdateForm := ⟨"", "", "", "", .empty, some "newfile"⟩

/-- An update form with no uploaded file that renames the group. -/
def formRenameOnly : UpdateForm := ⟨"Renombrado", "", "", "", .empty, none⟩

/-- Fault-free update schedule. -/
def updFaultsNone : UpdateFaults := ⟨false, false, false⟩

/-- Update schedule where the `UPDATE grupo` statement fails. -/
def updFaultsDbFail : UpdateFaults := ⟨true, false, false⟩

/-- Update schedule where deleting the old attachment fails. -/
def updFaultsRmOldFail : UpdateFaults := ⟨false, false, true⟩

/-- The spec scenario's request: page 1, limit 2, no filters. -/
def qScenario : QueryParams := ⟨"", "", "", "", "", "1", "2"⟩

/-! ## Pagination resolver: bounds -/

/-- Resolved pagination parameters always satisfy `page ≥ 1` and
`1 ≤ limit ≤ 100`. -/
lemma GetPaginationParams_bounds (pageStr limitStr : String) :
    1 ≤ (GetPaginationParams pageStr limitStr).1 ∧
    1 ≤ (GetPaginationParams pageStr limitStr).2 ∧
    (GetPaginationParams pageStr limitStr).2 ≤ 100 := by
  unfold GetPaginationParams
  rcases atoi? pageStr with _ | p <;> rcases atoi? limitStr with _ | l <;>
    simp only [] <;> split_ifs <;> omega

/-- C5: for every pair of raw `page` and `limit` inputs, the resolved page is
at least 1 and the resolved limit lies in [1, 100]; unparsable or < 1 inputs
default to page 1 and limit 6; `limit=500` is clamped to exactly 100; and
`limit=0` or `limit=-5` yields 6. -/
theorem getPaginationParams_bounds_and_defaults :
    (∀ pageStr limitStr : String,
      1 ≤ (GetPaginationParams pageStr limitStr).1 ∧
      1 ≤ (GetPaginationParams pageStr limitStr).2 ∧
      (GetPaginationParams pageStr limitStr).2 ≤ 100) ∧
    GetPaginationParams "" "" = (1, 6) ∧
    GetPaginationParams "abc" "xyz" = (1, 6) ∧
    GetPaginationParams "0" "500" = (1, 100) ∧
    GetPaginationParams "-7" "0" = (1, 6) ∧
    GetPaginationParams "3" "-5" = (3, 6) :=
  ⟨GetPaginationParams_bounds, by decide, by decide, by decide, by decide, by decide⟩

/-! ## Short-circuit on an empty count (C6) -/

/-- An empty group table produces no join rows. -/
lemma leftJoinRows_of_no_grupos (db : DB) (h : db.grupos = []) :
    leftJoinRows db = [] := by
  unfold leftJoinRows
  rw [h]
  rfl

/-- C6: when the count phase yields 0 the aggregation short-circuits: it
returns an empty item list without issuing the detail query, and the
handler's response carries data = [], totalItems = 0 and totalPages = 0. -/
theorem aggregation_zero_count_short_circuit :
    ∀ (db : DB) (f : Filters) (limit offset : Nat) (q : QueryParams),
      ((searchFilteredIds db f).length = 0 →
        SearchGrupos db f limit offset = ([], 0) ∧
        SqlQuery.detailQ ∉ SearchGruposQueries db f) ∧
      (db.grupos.length = 0 →
        GetAllGruposWithDetails db limit offset = ([], 0) ∧
        SqlQuery.detailQ ∉ GetAllGruposWithDetailsQueries db limit offset) ∧
      (db.grupos = [] →
        (GetGruposHandler db q).data = [] ∧
        (GetGruposHandler db q).pagination.totalItems = 0 ∧
        (GetGruposHandler db q).pagination.totalPages = 0) := by
  intro db f limit offset q
  refine ⟨fun h => ?_, fun h => ?_, fun h => ?_⟩
  · constructor
    · unfold SearchGrupos
      simp [h]
    · unfold SearchGruposQueries
      simp [h]
  · constructor
    · unfold GetAllGruposWithDetails
      simp [h]
    · unfold GetAllGruposWithDetailsQueries
      simp [h]
  · have hs : ∀ f' : Filters, searchFilteredIds db f' = [] := by
      intro f'
      unfold searchFilteredIds
      rw [leftJoinRows_of_no_grupos db h]
      rfl
    have hlen : db.grupos.length = 0 := by rw [h]; rfl
    have hS : ∀ f' lim off, SearchGrupos db f' lim off = ([], 0) := by
      intro f' lim off
      unfold SearchGrupos
      simp [hs f']
    have hA : ∀ lim off, GetAllGruposWithDetails db lim off = ([], 0) := by
      intro lim off
      unfold GetAllGruposWithDetails
      simp [hlen]
    unfold GetGruposHandler
    by_cases hsea : (q.grupo != "" || q.investigador != "" || q.year != "" ||
        q.lineaInvestigacion != "" || q.tipoInvestigacion != "") = true <;>
      simp [hsea, hS, hA, paginationMeta]

/-- C6 witness: the empty store with a group-name filter short-circuits and
the handler answers with zeroed metadata. -/
theorem aggregation_zero_count_short_circuit_witness :
    SearchGrupos emptyDB (grupoFilter "x") 6 0 = ([], 0) ∧
    SqlQuery.detailQ ∉ SearchGruposQueries emptyDB (grupoFilter "x") ∧
    GetAllGruposWithDetails emptyDB 6 0 = ([], 0) ∧
    (GetGruposHandler emptyDB ⟨"x", "", "", "", "", "", ""⟩).data = [] ∧
    (GetGruposHandler emptyDB ⟨"x", "", "", "", "", "", ""⟩).pagination.totalPages = 0 := by
  obtain ⟨h1, h2, h3⟩ :=
    aggregation_zero_count_short_circuit emptyDB (grupoFilter "x") 6 0
      ⟨"x", "", "", "", "", "", ""⟩
  obtain ⟨h11, h12⟩ := h1 (by decide)
  obtain ⟨h21, _⟩ := h2 (by decide)
  obtain ⟨h31, _, h33⟩ := h3 (by decide)
  exact ⟨h11, h12, h21, h31, h33⟩

/-! ## Nil-not-found versus store error (C9) -/

/-- C9: fetching a group or an investigator by an absent id yields the
distinct not-found signal `(nil, nil)`; a store failure yields a wrapped
error; the two signals are never conflated. -/
theorem getByID_nil_not_found :
    ∀ (db : DB) (id : Nat) (m : String),
      ((∀ g ∈ db.grupos, g.idGrupo ≠ id) → GetGrupoByID db none id = .ok none) ∧
      GetGrupoByID db (some m) id = .error ("error getting group by ID: " ++ m) ∧
      (∀ fault, GetGrupoByID db fault id = .ok none → fault = none) ∧
      ((∀ i ∈ db.investigadores, i.idInvestigador ≠ id) →
        GetInvestigadorByID db none id = .ok none) ∧
      GetInvestigadorByID db (some m) id =
        .error ("error getting investigator by ID: " ++ m) ∧
      (∀ fault, GetInvestigadorByID db fault id = .ok none → fault = none) := by
  intro db id m
  refine ⟨fun h => ?_, rfl, fun fault hf => ?_, fun h => ?_, rfl, fun fault hf => ?_⟩
  · unfold GetGrupoByID queryRowGrupoByID
    have : db.grupos.find? (fun g => g.idGrupo == id) = none := by
      rw [List.find?_eq_none]
      intro g hg
      simpa using h g hg
    rw [this]
  · cases fault with
    | none => rfl
    | some m' => simp [GetGrupoByID, queryRowGrupoByID] at hf
  · unfold GetInvestigadorByID queryRowInvestigadorByID
    have : db.investigadores.find? (fun i => i.idInvestigador == id) = none := by
      rw [List.find?_eq_none]
      intro i hi
      simpa using h i hi
    rw [this]
  · cases fault with
    | none => rfl
    | some m' => simp [GetInvestigadorByID, queryRowInvestigadorByID] at hf

/-- C9 witness: id 99 is absent from the scenario store and a faulted store
surfaces an error. -/
theorem getByID_nil_not_found_witness :
    GetGrupoByID dbScenario none 99 = .ok none ∧
    GetInvestigadorByID dbScenario none 99 = .ok none ∧
    GetGrupoByID dbScenario (some "boom") 99 =
      .error ("error getting group by ID: " ++ "boom") := by
  obtain ⟨h1, h2, _, h4, _, _⟩ := getByID_nil_not_found dbScenario 99 "boom"
  exact ⟨h1 (by decide), h4 (by decide), h2⟩

/-! ## Transactional composite writer (C4) -/

/-- When every relationship insert succeeds, the loop completes and the
transaction state has gained exactly the requested link rows (group and
investigator tables untouched). -/
lemma insertDetalles_all_success (faults : TxFaults) (gid : Nat) :
    ∀ (pairs : List (Nat × String)) (i : Nat) (tx : DB),
      (∀ j, j < pairs.length → faults.detailInsert (i + j) = .success) →
      ∃ txF, insertDetalles faults gid i tx pairs = (some txF, false) ∧
        txF.grupos = tx.grupos ∧ txF.investigadores = tx.investigadores ∧
        txF.links.map (fun l => (l.idGrupo, l.idInvestigador, l.rol)) =
          tx.links.map (fun l => (l.idGrupo, l.idInvestigador, l.rol)) ++
            pairs.map (fun p => (gid, p.1, p.2)) := by
  intro pairs
  induction pairs with
  | nil =>
    intro i tx _
    exact ⟨tx, rfl, rfl, rfl, by simp⟩
  | cons p rest ih =>
    intro i tx h
    have h0 : faults.detailInsert i = .success := by
      simpa using h 0 (by simp)
    have hrest : ∀ j, j < rest.length → faults.detailInsert (i + 1 + j) = .success := by
      intro j hj
      have := h (j + 1) (by simpa using Nat.succ_lt_succ hj)
      simpa [Nat.add_comm, Nat.add_assoc, Nat.add_left_comm] using this
    obtain ⟨txF, heq, hg, hi, hl⟩ :=
      ih (i + 1) { tx with links := tx.links ++ [⟨nextDetalleId tx, gid, p.1, p.2⟩] } hrest
    refine ⟨txF, ?_, hg, hi, ?_⟩
    · unfold insertDetalles
      rw [h0]
      exact heq
    · rw [hl]
      simp

/-- On a successful group insert the handler's result is determined by the
relationship-insert loop. -/
lemma createGrupoWithDetails_eq_of_group_success (db : DB) (req : CreateReq)
    (faults : TxFaults) (hgi : faults.groupInsert = .success) :
    CreateGrupoWithDetailsHandler db req faults =
      (match insertDetalles faults (nextGrupoId db) 0
          { db with grupos := db.grupos ++
              [{ idGrupo := nextGrupoId db
                 nombre := req.nombre
                 numeroResolucion := req.numeroResolucion
                 lineaInvestigacion := req.lineaInvestigacion
                 tipoInvestigacion := req.tipoInvestigacion
                 fechaRegistro := req.fechaRegistro
                 archivo := req.archivo }] } req.investigadores with
        | (some txFinal, _) =>
          (txFinal, .created
            { idGrupo := nextGrupoId db
              nombre := req.nombre
              numeroResolucion := req.numeroResolucion
              lineaInvestigacion := req.lineaInvestigacion
              tipoInvestigacion := req.tipoInvestigacion
              fechaRegistro := req.fechaRegistro
              archivo := req.archivo })
        | (none, false) => (db, .serverError)
        | (none, true) => (db, .panicked)) := by
  unfold CreateGrupoWithDetailsHandler
  rw [hgi]

/-- C4: the combined group+relationships creation is atomic: an error or a
panic anywhere in the sequence leaves the store exactly as it was (the
deferred function rolls the transaction back, re-panicking after rollback),
while an all-success run commits the group row with its generated id plus
one link row per requested pair, and the 201 response echoes only the
created group. -/
theorem createGrupoWithDetails_atomic :
    ∀ (db : DB) (req : CreateReq) (faults : TxFaults),
      (((CreateGrupoWithDetailsHandler db req faults).2 = .serverError ∨
        (CreateGrupoWithDetailsHandler db req faults).2 = .panicked) →
        (CreateGrupoWithDetailsHandler db req faults).1 = db) ∧
      (faults.groupInsert = .success →
        (∀ j, j < req.investigadores.length → faults.detailInsert j = .success) →
        ∃ g : Grupo,
          (CreateGrupoWithDetailsHandler db req faults).2 = .created g ∧
          g.idGrupo = nextGrupoId db ∧
          g.nombre = req.nombre ∧ g.archivo = req.archivo ∧
          (CreateGrupoWithDetailsHandler db req faults).1.grupos = db.grupos ++ [g] ∧
          (CreateGrupoWithDetailsHandler db req faults).1.investigadores =
            db.investigadores ∧
          (CreateGrupoWithDetailsHandler db req faults).1.links.map
              (fun l => (l.idGrupo, l.idInvestigador, l.rol)) =
            db.links.map (fun l => (l.idGrupo, l.idInvestigador, l.rol)) ++
              req.investigadores.map (fun p => (nextGrupoId db, p.1, p.2))) := by
  intro db req faults
  constructor
  · intro hout
    cases hgi : faults.groupInsert with
    | failure =>
      unfold CreateGrupoWithDetailsHandler
      rw [hgi]
    | panicked =>
      unfold CreateGrupoWithDetailsHandler
      rw [hgi]
    | success =>
      rw [createGrupoWithDetails_eq_of_group_success db req faults hgi] at hout ⊢
      rcases hins : insertDetalles faults (nextGrupoId db) 0
          { db with grupos := db.grupos ++
              [{ idGrupo := nextGrupoId db
                 nombre := req.nombre
                 numeroResolucion := req.numeroResolucion
                 lineaInvestigacion := req.lineaInvestigacion
                 tipoInvestigacion := req.tipoInvestigacion
                 fechaRegistro := req.fechaRegistro
                 archivo := req.archivo }] } req.investigadores with ⟨otx, b⟩
      rw [hins] at hout
      cases otx with
      | some txF => cases b <;> simp at hout
      | none => cases b <;> rfl
  · intro hgi hall
    obtain ⟨txF, heq, hg, hi, hl⟩ :=
      insertDetalles_all_success faults (nextGrupoId db) req.investigadores 0
        { db with grupos := db.grupos ++
            [{ idGrupo := nextGrupoId db
               nombre := req.nombre
               numeroResolucion := req.numeroResolucion
               lineaInvestigacion := req.lineaInvestigacion
               tipoInvestigacion := req.tipoInvestigacion
               fechaRegistro := req.fechaRegistro
               archivo := req.archivo }] }
        (by intro j hj; simpa using hall j hj)
    have hH : CreateGrupoWithDetailsHandler db req faults =
        (txF, .created
          { idGrupo := nextGrupoId db
            nombre := req.nombre
            numeroResolucion := req.numeroResolucion
            lineaInvestigacion := req.lineaInvestigacion
            tipoInvestigacion := req.tipoInvestigacion
            fechaRegistro := req.fechaRegistro
            archivo := req.archivo }) := by
      rw [createGrupoWithDetails_eq_of_group_success db req faults hgi, heq]
    refine ⟨{ idGrupo := nextGrupoId db
              nombre := req.nombre
              numeroResolucion := req.numeroResolucion
              lineaInvestigacion := req.lineaInvestigacion
              tipoInvestigacion := req.tipoInvestigacion
              fechaRegistro := req.fechaRegistro
              archivo := req.archivo }, ?_, rfl, rfl, rfl, ?_, ?_, ?_⟩ <;> rw [hH]
    · simpa using hg
    · exact hi
    · exact hl

/-- All-success fault schedule. -/
def faultsAllOk : TxFaults := ⟨.success, fun _ => .success⟩

/-- A fault schedule whose second relationship insert fails. -/
def faultsDetailOneFails : TxFaults :=
  ⟨.success, fun j => if j = 1 then .failure else .success⟩

/-- A concrete composite-create request with two relationship pairs. -/
def reqTwoInv : CreateReq :=
  ⟨"Nuevo", "R-9", "Linea N", "Aplicada", ⟨2025, 2, 2⟩, none,
   [(1, "Coordinador"), (2, "Integrante")]⟩

/-- C4 witness: on the scenario store, an all-success run commits the group
and both links, and a failing second relationship insert rolls everything
back. -/
theorem createGrupoWithDetails_atomic_witness :
    (∃ g : Grupo,
      (CreateGrupoWithDetailsHandler dbScenario reqTwoInv faultsAllOk).2 = .created g ∧
      g.idGrupo = nextGrupoId dbScenario ∧
      g.nombre = reqTwoInv.nombre ∧ g.archivo = reqTwoInv.archivo ∧
      (CreateGrupoWithDetailsHandler dbScenario reqTwoInv faultsAllOk).1.grupos =
        dbScenario.grupos ++ [g] ∧
      (CreateGrupoWithDetailsHandler dbScenario reqTwoInv faultsAllOk).1.investigadores =
        dbScenario.investigadores ∧
      (CreateGrupoWithDetailsHandler dbScenario reqTwoInv faultsAllOk).1.links.map
          (fun l => (l.idGrupo, l.idInvestigador, l.rol)) =
        dbScenario.links.map (fun l => (l.idGrupo, l.idInvestigador, l.rol)) ++
          reqTwoInv.investigadores.map (fun p => (nextGrupoId dbScenario, p.1, p.2))) ∧
    (CreateGrupoWithDetailsHandler dbScenario reqTwoInv faultsDetailOneFails).1 =
      dbScenario := by
  constructor
  · exact (createGrupoWithDetails_atomic dbScenario reqTwoInv faultsAllOk).2 rfl
      (by decide)
  · exact (createGrupoWithDetails_atomic dbScenario reqTwoInv faultsDetailOneFails).1
      (by decide)

/-! ## Attachment replace on update (C7) and the no-upload frame (C10) -/

/-- Replacing the row that the by-id lookup found leaves the replacement as
the row the same lookup now finds. -/
lemma find?_map_replace (l : List Grupo) (id : Nat) (u ex : Grupo)
    (hu : u.idGrupo = id)
    (h : l.find? (fun g => g.idGrupo == id) = some ex) :
    (l.map (fun g => if g.idGrupo == id then u else g)).find?
      (fun g => g.idGrupo == id) = some u := by
  induction l with
  | nil => simp at h
  | cons a l ih =>
    simp only [List.map_cons]
    by_cases ha : (a.idGrupo == id) = true
    · rw [if_pos ha]
      have hu' : (u.idGrupo == id) = true := by simp [hu]
      simp [List.find?, hu']
    · rw [if_neg ha]
      have h' : List.find? (fun g => g.idGrupo == id) l = some ex := by
        simpa [List.find?, ha] using h
      simpa [List.find?, ha] using ih h'

/-- C7: when an update uploads a new attachment replacing an old one: if the
database update fails, the store still references the old attachment, the
old attachment is untouched and the freshly stored one is removed; if the
database update succeeds, the row references the new attachment, and only
then is the old one deleted — a failing deletion is merely logged and the
update still answers 200 with the updated group. -/
theorem update_attachment_replace_safe :
    ∀ (db : DB) (fs : FileStore) (id : Nat) (form : UpdateForm)
      (faults : UpdateFaults) (ex : Grupo) (old nf : String),
      GetGrupoByID db none id = .ok (some ex) →
      ex.archivo = some old → old ≠ "" → nf ≠ "" → old ≠ nf →
      form.upload = some nf → nf ∉ fs.files → old ∈ fs.files →
      form.fechaRegistro ≠ .malformed →
      (faults.updateGrupoFails = true → faults.removeNewFails = false →
        (UpdateGrupoHandler db fs id form faults).1 = db ∧
        (UpdateGrupoHandler db fs id form faults).2.2 = .serverError ∧
        nf ∉ (UpdateGrupoHandler db fs id form faults).2.1.files ∧
        old ∈ (UpdateGrupoHandler db fs id form faults).2.1.files) ∧
      (faults.updateGrupoFails = false →
        (∃ u : Grupo,
          (UpdateGrupoHandler db fs id form faults).2.2 = .ok u ∧
          u.archivo = some nf ∧
          GetGrupoByID (UpdateGrupoHandler db fs id form faults).1 none id =
            .ok (some u)) ∧
        nf ∈ (UpdateGrupoHandler db fs id form faults).2.1.files ∧
        (faults.removeOldFails = false →
          old ∉ (UpdateGrupoHandler db fs id form faults).2.1.files) ∧
        (faults.removeOldFails = true →
          old ∈ (UpdateGrupoHandler db fs id form faults).2.1.files)) := by
  intro db fs id form faults ex old nf hfind harch hold hnfe hne hup hnf hofs hdate
  have hfind' : db.grupos.find? (fun g => g.idGrupo == id) = some ex := by
    unfold GetGrupoByID queryRowGrupoByID at hfind
    rcases h : db.grupos.find? (fun g => g.idGrupo == id) with _ | g
    · rw [h] at hfind
      simp at hfind
    · rw [h] at hfind
      simp only [Except.ok.injEq, Option.some.injEq] at hfind
      rw [← hfind]
      exact h
  have hH : UpdateGrupoHandler db fs id form faults =
      (match form.fechaRegistro with
       | .malformed =>
         (db, (removeFile { files := fs.files ++ [nf] } faults.removeNewFails
            (some nf)).1, .badRequest)
       | df =>
         let updatedGrupo : Grupo :=
           { idGrupo := id
             nombre := if form.nombre = "" then ex.nombre else form.nombre
             numeroResolucion :=
               if form.numeroResolucion = "" then ex.numeroResolucion
               else form.numeroResolucion
             lineaInvestigacion :=
               if form.lineaInvestigacion = "" then ex.lineaInvestigacion
               else form.lineaInvestigacion
             tipoInvestigacion :=
               if form.tipoInvestigacion = "" then ex.tipoInvestigacion
               else form.tipoInvestigacion
             fechaRegistro :=
               match df with
               | .valid d => d
               | _ => ex.fechaRegistro
             archivo := some nf }
         if faults.updateGrupoFails then
           (db, (removeFile { files := fs.files ++ [nf] } faults.removeNewFails
              (some nf)).1, .serverError)
         else
           ({ db with grupos := db.grupos.map (fun g =>
                if g.idGrupo == id then updatedGrupo else g) },
            (removeFile { files := fs.files ++ [nf] } faults.removeOldFails
              (some old)).1,
            .ok updatedGrupo)) := by
    unfold UpdateGrupoHandler
    rw [hfind, hup]
    cases form.fechaRegistro with
    | malformed => rfl
    | empty =>
      simp only [harch]
      rw [if_pos (⟨hold, hne⟩ : old ≠ "" ∧ old ≠ nf)]
    | valid d =>
      simp only [harch]
      rw [if_pos (⟨hold, hne⟩ : old ≠ "" ∧ old ≠ nf)]
  cases hdf : form.fechaRegistro with
  | malformed => exact absurd hdf hdate
  | empty =>
    rw [hdf] at hH
    constructor
    · intro hupd hrm
      rw [hH]
      simp only [hupd, if_true]
      refine ⟨by simp, by simp, ?_, ?_⟩ <;>
        simp [removeFile, hold, hnfe, hrm, hnf, hofs, hne, Ne.symm hne]
    · intro hupd
      rw [hH]
      simp only [hupd, Bool.false_eq_true, if_false]
      refine ⟨⟨_, rfl, rfl, ?_⟩, ?_, fun hro => ?_, fun hro => ?_⟩
      · unfold GetGrupoByID queryRowGrupoByID
        rw [find?_map_replace db.grupos id _ ex rfl hfind']
      · cases hro : faults.removeOldFails <;>
          simp [removeFile, hold, hnfe, hro, hnf, hofs, hne, Ne.symm hne]
      · simp [removeFile, hold, hnfe, hro, hnf, hofs, hne, Ne.symm hne]
      · simp [removeFile, hold, hnfe, hro, hnf, hofs, hne, Ne.symm hne]
  | valid d =>
    rw [hdf] at hH
    constructor
    · intro hupd hrm
      rw [hH]
      simp only [hupd, if_true]
      refine ⟨by simp, by simp, ?_, ?_⟩ <;>
        simp [removeFile, hold, hnfe, hrm, hnf, hofs, hne, Ne.symm hne]
    · intro hupd
      rw [hH]
      simp only [hupd, Bool.false_eq_true, if_false]
      refine ⟨⟨_, rfl, rfl, ?_⟩, ?_, fun hro => ?_, fun hro => ?_⟩
      · unfold GetGrupoByID queryRowGrupoByID
        rw [find?_map_replace db.grupos id _ ex rfl hfind']
      · cases hro : faults.removeOldFails <;>
          simp [removeFile, hold, hnfe, hro, hnf, hofs, hne, Ne.symm hne]
      · simp [removeFile, hold, hnfe, hro, hnf, hofs, hne, Ne.symm hne]
      · simp [removeFile, hold, hnfe, hro, hnf, hofs, hne, Ne.symm hne]

/-- C7 witness: replacing "oldfile" with "newfile" on the concrete store: a
failing database update preserves the old attachment and removes the new
one; a successful update answers 200 referencing the new attachment and
deletes the old one; a failing old-file deletion still answers 200. -/
theorem update_attachment_replace_safe_witness :
    ((UpdateGrupoHandler dbWithFile fsWithOld 1 formUploadNew updFaultsDbFail).1 =
        dbWithFile ∧
      "newfile" ∉ (UpdateGrupoHandler dbWithFile fsWithOld 1 formUploadNew
        updFaultsDbFail).2.1.files ∧
      "oldfile" ∈ (UpdateGrupoHandler dbWithFile fsWithOld 1 formUploadNew
        updFaultsDbFail).2.1.files) ∧
    (∃ u : Grupo,
      (UpdateGrupoHandler dbWithFile fsWithOld 1 formUploadNew updFaultsNone).2.2 =
        .ok u ∧ u.archivo = some "newfile") ∧
    "oldfile" ∉ (UpdateGrupoHandler dbWithFile fsWithOld 1 formUploadNew
      updFaultsNone).2.1.files ∧
    (∃ u : Grupo,
      (UpdateGrupoHandler dbWithFile fsWithOld 1 formUploadNew
        updFaultsRmOldFail).2.2 = .ok u) := by
  have h1 := update_attachment_replace_safe dbWithFile fsWithOld 1 formUploadNew
    updFaultsDbFail ⟨1, "Grupo Uno", "R-1", "Linea A", "Aplicada", ⟨2024, 1, 1⟩,
      some "oldfile"⟩ "oldfile" "newfile" rfl rfl (by decide) (by decide)
    (by decide) rfl (by decide) (by decide) (by decide)
  have h2 := update_attachment_replace_safe dbWithFile fsWithOld 1 formUploadNew
    updFaultsNone ⟨1, "Grupo Uno", "R-1", "Linea A", "Aplicada", ⟨2024, 1, 1⟩,
      some "oldfile"⟩ "oldfile" "newfile" rfl rfl (by decide) (by decide)
    (by decide) rfl (by decide) (by decide) (by decide)
  have h3 := update_attachment_replace_safe dbWithFile fsWithOld 1 formUploadNew
    updFaultsRmOldFail ⟨1, "Grupo Uno", "R-1", "Linea A", "Aplicada", ⟨2024, 1, 1⟩,
      some "oldfile"⟩ "oldfile" "newfile" rfl rfl (by decide) (by decide)
    (by decide) rfl (by decide) (by decide) (by decide)
  obtain ⟨ha1, _, ha3, ha4⟩ := h1.1 rfl rfl
  obtain ⟨⟨u2, hu2a, hu2b, _⟩, _, hold2, _⟩ := h2.2 rfl
  obtain ⟨⟨u3, hu3a, _, _⟩, _, _, _⟩ := h3.2 rfl
  exact ⟨⟨ha1, ha3, ha4⟩, ⟨u2, hu2a, hu2b⟩, hold2 rfl, ⟨u3, hu3a⟩⟩

/-- C10: a group update with no uploaded file leaves the attachment store
untouched and every group's stored attachment identifier exactly as it was
(only text/date fields may change); no deletion of any attachment is
attempted. -/
theorem update_no_upload_attachment_frame :
    ∀ (db : DB) (fs : FileStore) (id : Nat) (form : UpdateForm)
      (faults : UpdateFaults),
      (db.grupos.map Grupo.idGrupo).Nodup →
      form.upload = none →
      (UpdateGrupoHandler db fs id form faults).2.1 = fs ∧
      (UpdateGrupoHandler db fs id form faults).1.grupos.map
          (fun g => (g.idGrupo, g.archivo)) =
        db.grupos.map (fun g => (g.idGrupo, g.archivo)) := by
  intro db fs id form faults hnd hup
  unfold UpdateGrupoHandler GetGrupoByID queryRowGrupoByID
  rcases hf : db.grupos.find? (fun g => g.idGrupo == id) with _ | ex
  · rw [hf]
    exact ⟨rfl, rfl⟩
  · have hex : ex ∈ db.grupos := List.mem_of_find?_eq_some hf
    have hexid : (ex.idGrupo == id) = true := by
      simpa using List.find?_some hf
    rw [hf, hup]
    cases form.fechaRegistro with
    | malformed => exact ⟨rfl, rfl⟩
    | empty =>
      cases hupd : faults.updateGrupoFails
      · refine ⟨rfl, ?_⟩
        simp only [hupd, Bool.false_eq_true, if_false, List.map_map]
        refine List.map_congr_left (fun g hg => ?_)
        by_cases hgid : (g.idGrupo == id) = true
        · have hgid2 : g.idGrupo = id := by simpa using hgid
          have hexid2 : ex.idGrupo = id := by simpa using hexid
          have hge : g = ex :=
            List.inj_on_of_nodup_map hnd hg hex (by rw [hgid2, hexid2])
          simp [hgid, Function.comp, hge, hgid2, hexid2]
        · simp [hgid, Function.comp]
      · exact ⟨rfl, by simp [hupd]⟩
    | valid d =>
      cases hupd : faults.updateGrupoFails
      · refine ⟨rfl, ?_⟩
        simp only [hupd, Bool.false_eq_true, if_false, List.map_map]
        refine List.map_congr_left (fun g hg => ?_)
        by_cases hgid : (g.idGrupo == id) = true
        · have hgid2 : g.idGrupo = id := by simpa using hgid
          have hexid2 : ex.idGrupo = id := by simpa using hexid
          have hge : g = ex :=
            List.inj_on_of_nodup_map hnd hg hex (by rw [hgid2, hexid2])
          simp [hgid, Function.comp, hge, hgid2, hexid2]
        · simp [hgid, Function.comp]
      · exact ⟨rfl, by simp [hupd]⟩

/-- C10 witness: renaming the concrete group without uploading a file keeps
the attachment store and every stored attachment identifier unchanged. -/
theorem update_no_upload_attachment_frame_witness :
    (UpdateGrupoHandler dbWithFile fsWithOld 1 formRenameOnly updFaultsNone).2.1 =
      fsWithOld ∧
    (UpdateGrupoHandler dbWithFile fsWithOld 1 formRenameOnly
        updFaultsNone).1.grupos.map (fun g => (g.idGrupo, g.archivo)) =
      dbWithFile.grupos.map (fun g => (g.idGrupo, g.archivo)) :=
  update_no_upload_attachment_frame dbWithFile fsWithOld 1 formRenameOnly
    updFaultsNone (by decide) rfl

/-! ## Pagination metadata (C8) -/

/-- The handler's total-pages computation equals ceiling division. -/
lemma totalPages_eq_ceil (t L : Nat) (hL : 1 ≤ L) :
    (if t > 0 then (t + L - 1) / L else 0) = ⌈(t : ℚ) / (L : ℚ)⌉₊ := by
  rcases Nat.eq_zero_or_pos t with h0 | hpos
  · subst h0
    simp
  · rw [if_pos hpos]
    have hLQ : (0 : ℚ) < (L : ℚ) := by exact_mod_cast hL
    have hA : (t + L - 1) / L * L ≤ t + L - 1 := Nat.div_mul_le_self _ _
    have hB : t + L - 1 < ((t + L - 1) / L + 1) * L :=
      (Nat.div_lt_iff_lt_mul (by omega)).1 (Nat.lt_succ_self _)
    have hne : (t + L - 1) / L ≠ 0 := by
      have : 1 ≤ (t + L - 1) / L := (Nat.one_le_div_iff (by omega)).2 (by omega)
      omega
    symm
    rw [Nat.ceil_eq_iff hne]
    have hsub : ((t + L - 1) / L - 1) * L = (t + L - 1) / L * L - L := by
      rw [Nat.sub_mul, Nat.one_mul]
    have hadd : ((t + L - 1) / L + 1) * L = (t + L - 1) / L * L + L := by
      rw [Nat.add_mul, Nat.one_mul]
    rw [hadd] at hB
    constructor
    · rw [lt_div_iff₀ hLQ]
      have hnat : ((t + L - 1) / L - 1) * L < t := by
        rw [hsub]
        generalize (t + L - 1) / L * L = m at hA ⊢
        omega
      exact_mod_cast hnat
    · rw [div_le_iff₀ hLQ]
      have hnat : t ≤ (t + L - 1) / L * L := by
        generalize (t + L - 1) / L * L = m at hB ⊢
        omega
      exact_mod_cast hnat

/-- C8: every paginated response carries `totalPages = ceil(totalItems /
limit)` (0 when `totalItems` is 0, which the ceiling also gives), and
`currentPage` and `limit` echo the resolved pagination parameters; the
spec's scenario (3 groups, page 1, limit 2, no filters) yields 2 items,
totalItems 3 and totalPages 2. -/
theorem pagination_metadata_contract :
    (∀ (db : DB) (q : QueryParams),
      (GetGruposHandler db q).pagination.currentPage =
        (GetPaginationParams q.page q.limit).1 ∧
      (GetGruposHandler db q).pagination.limit =
        (GetPaginationParams q.page q.limit).2 ∧
      (GetGruposHandler db q).pagination.totalPages =
        ⌈(((GetGruposHandler db q).pagination.totalItems : ℚ)) /
          (((GetPaginationParams q.page q.limit).2.toNat : ℚ))⌉₊) ∧
    (GetGruposHandler dbScenario qScenario).pagination.totalItems = 3 ∧
    (GetGruposHandler dbScenario qScenario).pagination.totalPages = 2 ∧
    (GetGruposHandler dbScenario qScenario).pagination.currentPage = 1 ∧
    (GetGruposHandler dbScenario qScenario).pagination.limit = 2 ∧
    (GetGruposHandler dbScenario qScenario).data.length = 2 := by
  refine ⟨fun db q => ⟨rfl, rfl, ?_⟩, by decide, by decide, by decide, by decide,
    by decide⟩
  have h1L : 1 ≤ (GetPaginationParams q.page q.limit).2.toNat := by
    have := (GetPaginationParams_bounds q.page q.limit).2.1
    omega
  exact totalPages_eq_ceil _ _ h1L

/-! ## Aggregation invariants: distinct-count, dedup and full-membership -/

/-! dedupByKey lemmas -/

lemma dedupByKey_cons (key : α → Nat) (a : α) (l : List α) :
    dedupByKey key (a :: l) =
      a :: dedupByKey key (l.filter (fun b => key b ≠ key a)) := by
  rw [dedupByKey]

lemma dedupByKey_snoc (key : α → Nat) (l : List α) (x : α) :
    dedupByKey key (l ++ [x]) =
      if key x ∈ l.map key then dedupByKey key l
      else dedupByKey key l ++ [x] := by
  induction l using dedupByKey.induct key with
  | case1 => simp [dedupByKey]
  | case2 a l ih =>
    rw [List.cons_append, dedupByKey_cons, List.filter_append]
    by_cases hxa : key x = key a
    · have h0 : List.filter (fun b => decide (key b ≠ key a)) [x] = [] := by
        simp [hxa]
      rw [h0, List.append_nil]
      rw [if_pos (by simp [hxa])]
      rw [dedupByKey_cons]
    · have h0 : List.filter (fun b => decide (key b ≠ key a)) [x] = [x] := by
        simp [hxa]
      rw [h0, ih]
      have hiff : key x ∈ (l.filter (fun b => decide (key b ≠ key a))).map key ↔
          key x ∈ l.map key := by
        simp only [List.mem_map, List.mem_filter]
        constructor
        · rintro ⟨b, ⟨hb, _⟩, he⟩
          exact ⟨b, hb, he⟩
        · rintro ⟨b, hb, he⟩
          exact ⟨b, ⟨hb, by simp [he, hxa]⟩, he⟩
      by_cases hx : key x ∈ l.map key
      · rw [if_pos (hiff.mpr hx), if_pos (by simp [hx]), dedupByKey_cons]
      · rw [if_neg (fun h => hx (hiff.mp h)), if_neg (by simp [hx, hxa]),
          dedupByKey_cons]
        simp

lemma mem_of_mem_dedupByKey {key : α → Nat} {l : List α} {x : α}
    (h : x ∈ dedupByKey key l) : x ∈ l := by
  induction l using dedupByKey.induct key with
  | case1 => simp [dedupByKey] at h
  | case2 a l ih =>
    rw [dedupByKey_cons] at h
    rcases List.mem_cons.mp h with h | h
    · simp [h]
    · exact List.mem_cons_of_mem _ (List.mem_of_mem_filter (ih h))

lemma mem_map_dedupByKey (key : α → Nat) (l : List α) (k : Nat) :
    k ∈ (dedupByKey key l).map key ↔ k ∈ l.map key := by
  induction l using dedupByKey.induct key with
  | case1 => simp [dedupByKey]
  | case2 a l ih =>
    rw [dedupByKey_cons]
    simp only [List.map_cons, List.mem_cons]
    rw [ih]
    by_cases hka : k = key a
    · simp [hka]
    · simp only [hka, false_or]
      simp only [List.mem_map, List.mem_filter]
      constructor
      · rintro ⟨b, ⟨hb, _⟩, he⟩
        exact ⟨b, hb, he⟩
      · rintro ⟨b, hb, he⟩
        refine ⟨b, ⟨hb, ?_⟩, he⟩
        simp only [decide_eq_true_eq]
        intro hc
        exact hka (he ▸ hc ▸ rfl)

lemma nodup_map_dedupByKey (key : α → Nat) (l : List α) :
    ((dedupByKey key l).map key).Nodup := by
  induction l using dedupByKey.induct key with
  | case1 => simp [dedupByKey]
  | case2 a l ih =>
    rw [dedupByKey_cons]
    simp only [List.map_cons, List.nodup_cons]
    refine ⟨fun hmem => ?_, ih⟩
    rw [mem_map_dedupByKey] at hmem
    simp only [List.mem_map, List.mem_filter] at hmem
    obtain ⟨b, ⟨_, hb⟩, he⟩ := hmem
    simp [he] at hb

lemma length_dedupByKey (key : α → Nat) (l : List α) :
    (dedupByKey key l).length = ((l.map key).dedup).length := by
  have hperm : ((dedupByKey key l).map key).Perm ((l.map key).dedup) := by
    apply List.perm_of_nodup_nodup_toFinset_eq (nodup_map_dedupByKey key l)
      (List.nodup_dedup _)
    ext k
    simp only [List.mem_toFinset, List.mem_dedup]
    exact mem_map_dedupByKey key l k
  calc (dedupByKey key l).length
      = ((dedupByKey key l).map key).length := (List.length_map _ _).symm
    _ = ((l.map key).dedup).length := hperm.length_eq

/-! entrySpec lemmas -/

lemma entrySpec_nil (d : Bool) : entrySpec d [] = [] := by
  unfold entrySpec
  cases d <;> simp [dedupByKey]

lemma entrySpec_append_none {d : Bool} {es : List Row} {r : Row}
    (h : r.entry? = none) : entrySpec d (es ++ [r]) = entrySpec d es := by
  unfold entrySpec
  rw [List.filterMap_append]
  simp [List.filterMap, h]

lemma entrySpec_append_some {d : Bool} {es : List Row} {r : Row}
    {e : InvestigadorConRol} (h : r.entry? = some e) :
    entrySpec d (es ++ [r]) =
      if d = true ∧ e.id ∈ (es.filterMap Row.entry?).map InvestigadorConRol.id
      then entrySpec d es
      else entrySpec d es ++ [e] := by
  unfold entrySpec
  have h0 : List.filterMap Row.entry? (es ++ [r]) =
      es.filterMap Row.entry? ++ [e] := by
    rw [List.filterMap_append]
    simp [List.filterMap, h]
  rw [h0]
  cases d with
  | false => simp
  | true =>
    rw [if_pos rfl, dedupByKey_snoc]
    by_cases hm : e.id ∈ (es.filterMap Row.entry?).map InvestigadorConRol.id
    · rw [if_pos hm, if_pos ⟨rfl, hm⟩]
      simp
    · rw [if_neg hm, if_neg (fun hc => hm hc.2)]
      simp

/-! row lemmas -/

lemma rowsOfGrupo_grupo (db : DB) (g : Grupo) :
    ∀ r ∈ rowsOfGrupo db g, r.g = g := by
  intro r hr
  unfold rowsOfGrupo at hr
  by_cases h : (db.links.filter (fun l => l.idGrupo == g.idGrupo)).isEmpty
  · rw [if_pos h] at hr
    simp at hr
    rw [hr]
  · rw [if_neg h] at hr
    simp only [List.mem_flatMap] at hr
    obtain ⟨l, _, hr⟩ := hr
    by_cases h2 : (db.investigadores.filter
        (fun i => i.idInvestigador == l.idInvestigador)).isEmpty
    · rw [if_pos h2] at hr
      simp at hr
      rw [hr]
    · rw [if_neg h2] at hr
      simp only [List.mem_map] at hr
      obtain ⟨i, _, hr⟩ := hr
      rw [← hr]

lemma rowsOfGrupo_ne_nil (db : DB) (g : Grupo) : rowsOfGrupo db g ≠ [] := by
  unfold rowsOfGrupo
  by_cases h : (db.links.filter (fun l => l.idGrupo == g.idGrupo)).isEmpty
  · rw [if_pos h]
    simp
  · rw [if_neg h]
    rcases hl : db.links.filter (fun l => l.idGrupo == g.idGrupo) with _ | ⟨l0, ls⟩
    · rw [hl] at h
      simp at h
    · rw [hl, List.flatMap_cons]
      intro hc
      have h1 := (List.append_eq_nil.mp hc).1
      by_cases h2 : (db.investigadores.filter
          (fun i => i.idInvestigador == l0.idInvestigador)).isEmpty
      · rw [if_pos h2] at h1
        simp at h1
      · rw [if_neg h2] at h1
        rw [List.map_eq_nil_iff] at h1
        rw [h1] at h2
        simp at h2

lemma filterMap_entry_rowsOfGrupo (db : DB) (g : Grupo) :
    (rowsOfGrupo db g).filterMap Row.entry? = fullEntries db g.idGrupo := by
  unfold rowsOfGrupo fullEntries
  by_cases h : (db.links.filter (fun l => l.idGrupo == g.idGrupo)).isEmpty
  · rw [if_pos h]
    rw [List.isEmpty_iff] at h
    rw [h]
    simp [List.filterMap, Row.entry?]
  · rw [if_neg h]
    rw [List.filterMap_flatMap]
    refine congrArg _ (funext fun l => ?_)
    by_cases h2 : (db.investigadores.filter
        (fun i => i.idInvestigador == l.idInvestigador)).isEmpty
    · rw [if_pos h2]
      rw [List.isEmpty_iff] at h2
      rw [h2]
      simp [List.filterMap, Row.entry?]
    · rw [if_neg h2]
      rw [List.filterMap_map]
      have : (Row.entry? ∘ fun i =>
          (⟨g, some (l, some i)⟩ : Row)) = fun i =>
            some ⟨i.idInvestigador, i.nombre, i.apellido, l.rol⟩ := by
        funext i
        rfl
      have h3 : (fun i : Investigador =>
          some (⟨i.idInvestigador, i.nombre, i.apellido, l.rol⟩ :
            InvestigadorConRol)) =
          some ∘ (fun i : Investigador =>
            (⟨i.idInvestigador, i.nombre, i.apellido, l.rol⟩ :
              InvestigadorConRol)) := rfl
      rw [this, h3, List.filterMap_eq_map]

/-! collapse loop invariant -/

lemma collapseRows_nil (d : Bool) : collapseRows d [] = [] := rfl

lemma collapseRows_snoc (d : Bool) (rows : List Row) (r : Row) :
    collapseRows d (rows ++ [r]) = addRow d (collapseRows d rows) r := by
  unfold collapseRows
  rw [List.foldl_append]
  rfl


lemma addRow_none (d : Bool) (A : List GrupoWithInvestigadores) (r : Row)
    (hent : r.entry? = none) :
    addRow d A r =
      (if A.any (fun gw => gw.grupo.idGrupo == r.g.idGrupo) then A
       else A ++ [⟨r.g, []⟩]) := by
  unfold addRow
  rw [hent]

lemma addRow_some (d : Bool) (A : List GrupoWithInvestigadores) (r : Row)
    (e : InvestigadorConRol) (hent : r.entry? = some e) :
    addRow d A r =
      (if A.any (fun gw => gw.grupo.idGrupo == r.g.idGrupo) then A
       else A ++ [⟨r.g, []⟩]).map (fun gw =>
        if gw.grupo.idGrupo == r.g.idGrupo then
          if d && gw.investigadores.any (fun x => x.id == e.id) then gw
          else { gw with investigadores := gw.investigadores ++ [e] }
        else gw) := by
  unfold addRow
  rw [hent]

lemma addRow_upd_grupo (d : Bool) (e : InvestigadorConRol) (gid : Nat)
    (gw : GrupoWithInvestigadores) :
    (if gw.grupo.idGrupo == gid then
        if d && gw.investigadores.any (fun x => x.id == e.id) then gw
        else { gw with investigadores := gw.investigadores ++ [e] }
      else gw).grupo = gw.grupo := by
  split_ifs <;> rfl

lemma collapseRows_inv (d : Bool) (rows : List Row) :
    ((collapseRows d rows).map (fun gw => gw.grupo.idGrupo)).Nodup ∧
    (∀ a : Nat, (∃ gw ∈ collapseRows d rows, gw.grupo.idGrupo = a) ↔
      a ∈ rows.map (fun r' => r'.g.idGrupo)) ∧
    (∀ gw ∈ collapseRows d rows,
      gw.investigadores =
        entrySpec d (rows.filter (fun r' => r'.g.idGrupo == gw.grupo.idGrupo)) ∧
      ∃ r' ∈ rows, r'.g = gw.grupo) := by
  induction rows using List.reverseRecOn with
  | nil =>
    refine ⟨by simp [collapseRows_nil], by simp [collapseRows_nil],
      by simp [collapseRows_nil]⟩
  | append_singleton rows r ih =>
    obtain ⟨ih1, ih2, ih3⟩ := ih
    rw [collapseRows_snoc]
    have hfilt : ∀ b : Nat, (rows ++ [r]).filter (fun r' => r'.g.idGrupo == b) =
        rows.filter (fun r' => r'.g.idGrupo == b) ++
          (if (r.g.idGrupo == b) = true then [r] else []) := by
      intro b
      rw [List.filter_append]
      congr 1
      cases h : (r.g.idGrupo == b) <;> simp [List.filter_cons, h]
    have hmap : (rows ++ [r]).map (fun r' => r'.g.idGrupo) =
        rows.map (fun r' => r'.g.idGrupo) ++ [r.g.idGrupo] := by simp
    by_cases hmem : ((collapseRows d rows).any
        (fun gw => gw.grupo.idGrupo == r.g.idGrupo)) = true
    · have hmem' : ∃ gw ∈ collapseRows d rows, gw.grupo.idGrupo = r.g.idGrupo := by
        simpa [List.any_eq_true] using hmem
      rcases hent : r.entry? with _ | e
      · -- group already seen, row contributes no investigator entry
        rw [addRow_none d _ r hent, if_pos hmem]
        refine ⟨ih1, fun a => ?_, fun gw hgw => ?_⟩
        · rw [hmap]
          simp only [List.mem_append, List.mem_singleton]
          constructor
          · intro h
            exact Or.inl ((ih2 a).mp h)
          · rintro (h | h)
            · exact (ih2 a).mpr h
            · obtain ⟨gw, hgw, hgid⟩ := hmem'
              exact ⟨gw, hgw, by rw [hgid, h]⟩
        · obtain ⟨hinv, hex⟩ := ih3 gw hgw
          refine ⟨?_, ?_⟩
          · rw [hfilt]
            by_cases hgid : (r.g.idGrupo == gw.grupo.idGrupo) = true
            · rw [if_pos hgid, entrySpec_append_none hent]
              exact hinv
            · rw [if_neg (by simp [hgid]), List.append_nil]
              exact hinv
          · obtain ⟨r', hr', he⟩ := hex
            exact ⟨r', List.mem_append_left _ hr', he⟩
      · -- group already seen, row appends an entry
        rw [addRow_some d _ r e hent, if_pos hmem]
        refine ⟨?_, fun a => ?_, fun gw' hgw' => ?_⟩
        · have hgids : ((collapseRows d rows).map (fun gw =>
              if gw.grupo.idGrupo == r.g.idGrupo then
                if d && gw.investigadores.any (fun x => x.id == e.id) then gw
                else { gw with investigadores := gw.investigadores ++ [e] }
              else gw)).map (fun gw => gw.grupo.idGrupo) =
              (collapseRows d rows).map (fun gw => gw.grupo.idGrupo) := by
            rw [List.map_map]
            exact List.map_congr_left (fun gw _ => by
              simp only [Function.comp]
              rw [addRow_upd_grupo])
          rw [hgids]
          exact ih1
        · rw [hmap]
          simp only [List.mem_append, List.mem_singleton]
          constructor
          · rintro ⟨gw', hgw', ha⟩
            obtain ⟨gw, hgw, hupd⟩ := List.mem_map.mp hgw'
            apply Or.inl
            apply (ih2 a).mp
            refine ⟨gw, hgw, ?_⟩
            rw [← ha, ← hupd, addRow_upd_grupo]
          · rintro (h | h)
            · obtain ⟨gw, hgw, hgid⟩ := (ih2 a).mpr h
              refine ⟨_, List.mem_map_of_mem (fun gw =>
                if gw.grupo.idGrupo == r.g.idGrupo then
                  if d && gw.investigadores.any (fun x => x.id == e.id) then gw
                  else { gw with investigadores := gw.investigadores ++ [e] }
                else gw) hgw, ?_⟩
              rw [addRow_upd_grupo]
              exact hgid
            · obtain ⟨gw, hgw, hgid⟩ := hmem'
              refine ⟨_, List.mem_map_of_mem (fun gw =>
                if gw.grupo.idGrupo == r.g.idGrupo then
                  if d && gw.investigadores.any (fun x => x.id == e.id) then gw
                  else { gw with investigadores := gw.investigadores ++ [e] }
                else gw) hgw, ?_⟩
              rw [addRow_upd_grupo, hgid, h]
        · obtain ⟨gw, hgw, hupd⟩ := List.mem_map.mp hgw'
          obtain ⟨hinv, hex⟩ := ih3 gw hgw
          have hgrupo : gw'.grupo = gw.grupo := by
            rw [← hupd, addRow_upd_grupo]
          by_cases hgid : (gw.grupo.idGrupo == r.g.idGrupo) = true
          · have hgid' : (r.g.idGrupo == gw.grupo.idGrupo) = true := by
              simp only [beq_iff_eq] at hgid ⊢
              exact hgid.symm
            have hany : (gw.investigadores.any (fun x => x.id == e.id) = true) ↔
                e.id ∈ ((rows.filter (fun r' =>
                  r'.g.idGrupo == gw.grupo.idGrupo)).filterMap Row.entry?).map
                    InvestigadorConRol.id := by
              rw [hinv]
              unfold entrySpec
              cases d with
              | false =>
                rw [if_neg (by simp)]
                simp only [List.any_eq_true, List.mem_map]
                constructor
                · rintro ⟨x, hx, hxe⟩
                  exact ⟨x, hx, beq_iff_eq.mp hxe⟩
                · rintro ⟨x, hx, hxe⟩
                  exact ⟨x, hx, beq_iff_eq.mpr hxe⟩
              | true =>
                rw [if_pos rfl]
                simp only [List.any_eq_true]
                constructor
                · rintro ⟨x, hx, hxe⟩
                  refine (mem_map_dedupByKey InvestigadorConRol.id _ e.id).mp ?_
                  exact List.mem_map.mpr ⟨x, hx, beq_iff_eq.mp hxe⟩
                · intro hx
                  obtain ⟨x, hx2, hx3⟩ := List.mem_map.mp
                    ((mem_map_dedupByKey InvestigadorConRol.id _ e.id).mpr hx)
                  exact ⟨x, hx2, beq_iff_eq.mpr hx3⟩
            refine ⟨?_, ?_⟩
            · rw [hgrupo, hfilt, if_pos hgid', entrySpec_append_some hent,
                ← hupd, if_pos hgid]
              by_cases hdup : (d && gw.investigadores.any
                  (fun x => x.id == e.id)) = true
              · rw [if_pos hdup]
                have hdd : d = true ∧ (gw.investigadores.any
                    (fun x => x.id == e.id)) = true := by
                  simpa using hdup
                have he' : e.id ∈ ((rows.filter (fun r' =>
                    r'.g.idGrupo == gw.grupo.idGrupo)).filterMap Row.entry?).map
                      InvestigadorConRol.id :=
                  hany.mp hdd.2
                have hd : d = true := hdd.1
                rw [if_pos ⟨hd, he'⟩]
                exact hinv
              · rw [if_neg hdup]
                simp only []
                by_cases hd : d = true
                · have hne : ¬ (gw.investigadores.any
                      (fun x => x.id == e.id)) = true := by
                    intro hc
                    exact hdup (by rw [hd, hc]; rfl)
                  have he' : ¬ e.id ∈ ((rows.filter (fun r' =>
                      r'.g.idGrupo == gw.grupo.idGrupo)).filterMap Row.entry?).map
                        InvestigadorConRol.id :=
                    fun hc => hne (hany.mpr hc)
                  rw [if_neg (fun hc => he' hc.2), hinv]
                · have hd' : d = false := by
                    cases d
                    · rfl
                    · exact absurd rfl hd
                  rw [if_neg (fun hc => hd hc.1), hinv]
            · obtain ⟨r', hr', he'⟩ := hex
              exact ⟨r', List.mem_append_left _ hr', by rw [he', hgrupo]⟩
          · have hupd' : gw' = gw := by
              rw [← hupd, if_neg hgid]
            rw [hupd']
            refine ⟨?_, ?_⟩
            · rw [hfilt, if_neg (by
                simp only [beq_iff_eq] at hgid ⊢
                exact fun hc => hgid hc.symm), List.append_nil]
              exact hinv
            · obtain ⟨r', hr', he'⟩ := hex
              exact ⟨r', List.mem_append_left _ hr', he'⟩
    · -- group not seen before: a new GrupoWithInvestigadores is appended
      have hnotin : r.g.idGrupo ∉ rows.map (fun r' => r'.g.idGrupo) := by
        intro hc
        obtain ⟨gw, hgw, hgid⟩ := (ih2 _).mpr hc
        exact hmem (List.any_eq_true.mpr ⟨gw, hgw, by simp [hgid]⟩)
      have hrowsfilt : rows.filter (fun r' => r'.g.idGrupo == r.g.idGrupo) = [] := by
        rw [List.filter_eq_nil_iff]
        intro r' hr'
        simp only [beq_iff_eq]
        intro hc
        exact hnotin (List.mem_map.mpr ⟨r', hr', hc⟩)
      have hgidnot : ∀ gw ∈ collapseRows d rows,
          (gw.grupo.idGrupo == r.g.idGrupo) = false := by
        intro gw hgw
        cases hb : (gw.grupo.idGrupo == r.g.idGrupo)
        · rfl
        · exact absurd (List.any_eq_true.mpr ⟨gw, hgw, hb⟩) hmem
      have hnewnodup : ((collapseRows d rows ++ [(⟨r.g, []⟩ :
          GrupoWithInvestigadores)]).map (fun gw => gw.grupo.idGrupo)).Nodup := by
        rw [List.map_append]
        simp only [List.map_cons, List.map_nil]
        rw [List.nodup_append]
        refine ⟨ih1, List.nodup_singleton _, ?_⟩
        intro b hb
        simp only [List.mem_singleton]
        intro hc
        obtain ⟨gw, hgw, hgid⟩ := List.mem_map.mp hb
        have := hgidnot gw hgw
        rw [hgid, hc] at this
        simp at this
      rcases hent : r.entry? with _ | e
      · rw [addRow_none d _ r hent, if_neg hmem]
        refine ⟨hnewnodup, fun a => ?_, fun gw hgw => ?_⟩
        · rw [hmap]
          simp only [List.mem_append, List.mem_singleton]
          constructor
          · rintro ⟨gw, hgw, hgid⟩
            rcases hgw with h | h
            · exact Or.inl ((ih2 a).mp ⟨gw, h, hgid⟩)
            · right
              rw [← hgid, h]
          · rintro (h | h)
            · obtain ⟨gw, hgw, hgid⟩ := (ih2 a).mpr h
              exact ⟨gw, Or.inl hgw, hgid⟩
            · exact ⟨⟨r.g, []⟩, Or.inr rfl, h.symm⟩
        · rcases List.mem_append.mp hgw with h | h
          · obtain ⟨hinv, hex⟩ := ih3 gw h
            refine ⟨?_, ?_⟩
            · rw [hfilt, if_neg (by
                intro hc
                have h1 := hgidnot gw h
                rw [beq_iff_eq] at hc
                rw [hc] at h1
                simp at h1), List.append_nil]
              exact hinv
            · obtain ⟨r', hr', he'⟩ := hex
              exact ⟨r', List.mem_append_left _ hr', he'⟩
          · rw [List.mem_singleton] at h
            rw [h]
            refine ⟨?_, ⟨r, List.mem_append_right _ (List.mem_singleton.mpr rfl),
              rfl⟩⟩
            rw [hfilt]
            simp only []
            rw [if_pos (by simp), hrowsfilt, List.nil_append]
            have h1 : entrySpec d [r] = [] := by
              have h0 : ([] : List Row) ++ [r] = [r] := by simp
              rw [← h0, entrySpec_append_none hent, entrySpec_nil]
            rw [h1]
      · rw [addRow_some d _ r e hent, if_neg hmem]
        have hmapupd : (collapseRows d rows ++ [(⟨r.g, []⟩ :
            GrupoWithInvestigadores)]).map (fun gw =>
            if gw.grupo.idGrupo == r.g.idGrupo then
              if d && gw.investigadores.any (fun x => x.id == e.id) then gw
              else { gw with investigadores := gw.investigadores ++ [e] }
            else gw) =
            collapseRows d rows ++ [⟨r.g, [e]⟩] := by
          rw [List.map_append]
          congr 1
          · refine (List.map_congr_left (fun gw hgw => ?_)).trans (List.map_id _)
            rw [if_neg (by rw [hgidnot gw hgw]; simp)]
            rfl
          · simp only [List.map_cons, List.map_nil]
            rw [if_pos (by simp)]
            simp
        rw [hmapupd]
        refine ⟨?_, fun a => ?_, fun gw hgw => ?_⟩
        · have : ((collapseRows d rows ++ [(⟨r.g, [e]⟩ :
              GrupoWithInvestigadores)]).map (fun gw => gw.grupo.idGrupo)) =
              ((collapseRows d rows ++ [(⟨r.g, []⟩ :
              GrupoWithInvestigadores)]).map (fun gw => gw.grupo.idGrupo)) := by
            rw [List.map_append, List.map_append]
            rfl
          rw [this]
          exact hnewnodup
        · rw [hmap]
          simp only [List.mem_append, List.mem_singleton]
          constructor
          · rintro ⟨gw, hgw, hgid⟩
            rcases hgw with h | h
            · exact Or.inl ((ih2 a).mp ⟨gw, h, hgid⟩)
            · right
              rw [← hgid, h]
          · rintro (h | h)
            · obtain ⟨gw, hgw, hgid⟩ := (ih2 a).mpr h
              exact ⟨gw, Or.inl hgw, hgid⟩
            · exact ⟨⟨r.g, [e]⟩, Or.inr rfl, h.symm⟩
        · rcases List.mem_append.mp hgw with h | h
          · obtain ⟨hinv, hex⟩ := ih3 gw h
            refine ⟨?_, ?_⟩
            · rw [hfilt, if_neg (by
                intro hc
                have h1 := hgidnot gw h
                rw [beq_iff_eq] at hc
                rw [hc] at h1
                simp at h1), List.append_nil]
              exact hinv
            · obtain ⟨r', hr', he'⟩ := hex
              exact ⟨r', List.mem_append_left _ hr', he'⟩
          · rw [List.mem_singleton] at h
            rw [h]
            refine ⟨?_, ⟨r, List.mem_append_right _ (List.mem_singleton.mpr rfl),
              rfl⟩⟩
            rw [hfilt]
            simp only []
            rw [if_pos (by simp), hrowsfilt, List.nil_append]
            have h0 : ([] : List Row) ++ [r] = [r] := by simp
            rw [← h0, entrySpec_append_some hent, entrySpec_nil]
            simp

/-! search filter equivalence -/

lemma exists_row_inv_clause (db : DB) (f : Filters) (g : Grupo) :
    (∃ r ∈ rowsOfGrupo db g, (f.investigador == "" ||
      (match r.link with
       | some (_, some i) =>
         ilikeContains f.investigador (i.nombre ++ " " ++ i.apellido)
       | _ => false)) = true) ↔
    (f.investigador == "" ||
      db.links.any (fun l => l.idGrupo == g.idGrupo &&
        db.investigadores.any (fun i => i.idInvestigador == l.idInvestigador &&
          ilikeContains f.investigador (i.nombre ++ " " ++ i.apellido)))) = true := by
  by_cases hInv : (f.investigador == "") = true
  · simp only [hInv, Bool.true_or, iff_true]
    obtain ⟨r, hr⟩ := List.exists_mem_of_ne_nil _ (rowsOfGrupo_ne_nil db g)
    exact ⟨r, hr, by simp⟩
  · have hInv' : (f.investigador == "") = false := by
      cases hb : (f.investigador == "")
      · rfl
      · exact absurd hb hInv
    simp only [hInv', Bool.false_or]
    unfold rowsOfGrupo
    by_cases h : (db.links.filter (fun l => l.idGrupo == g.idGrupo)).isEmpty
    · rw [if_pos h]
      rw [List.isEmpty_iff, List.filter_eq_nil_iff] at h
      simp only [List.mem_singleton]
      constructor
      · rintro ⟨r, hr, hm⟩
        rw [hr] at hm
        simp at hm
      · intro hany
        obtain ⟨l, hl, hcl⟩ := List.any_eq_true.mp hany
        have := h l hl
        rw [Bool.and_eq_true] at hcl
        exact absurd hcl.1 this
    · rw [if_neg h]
      constructor
      · rintro ⟨r, hr, hm⟩
        rw [List.mem_flatMap] at hr
        obtain ⟨l, hl, hrl⟩ := hr
        rw [List.mem_filter] at hl
        by_cases h2 : (db.investigadores.filter
            (fun i => i.idInvestigador == l.idInvestigador)).isEmpty
        · rw [if_pos h2] at hrl
          rw [List.mem_singleton] at hrl
          rw [hrl] at hm
          simp at hm
        · rw [if_neg h2] at hrl
          rw [List.mem_map] at hrl
          obtain ⟨i, hi, hri⟩ := hrl
          rw [← hri] at hm
          simp only [] at hm
          rw [List.mem_filter] at hi
          refine List.any_eq_true.mpr ⟨l, hl.1, ?_⟩
          rw [Bool.and_eq_true]
          refine ⟨hl.2, List.any_eq_true.mpr ⟨i, hi.1, ?_⟩⟩
          rw [Bool.and_eq_true]
          exact ⟨hi.2, hm⟩
      · intro hany
        obtain ⟨l, hl, hcl⟩ := List.any_eq_true.mp hany
        rw [Bool.and_eq_true] at hcl
        obtain ⟨hlg, hcl2⟩ := hcl
        obtain ⟨i, hi, hcli⟩ := List.any_eq_true.mp hcl2
        rw [Bool.and_eq_true] at hcli
        obtain ⟨hii, hilike⟩ := hcli
        have hlmem : l ∈ db.links.filter (fun l' => l'.idGrupo == g.idGrupo) :=
          List.mem_filter.mpr ⟨hl, hlg⟩
        have himem : i ∈ db.investigadores.filter
            (fun i' => i'.idInvestigador == l.idInvestigador) :=
          List.mem_filter.mpr ⟨hi, hii⟩
        have h2 : ¬ (db.investigadores.filter
            (fun i' => i'.idInvestigador == l.idInvestigador)).isEmpty = true := by
          intro hc
          rw [List.isEmpty_iff] at hc
          rw [hc] at himem
          exact absurd himem (List.not_mem_nil i)
        refine ⟨⟨g, some (l, some i)⟩, ?_, hilike⟩
        rw [List.mem_flatMap]
        refine ⟨l, hlmem, ?_⟩
        rw [if_neg h2, List.mem_map]
        exact ⟨i, himem, rfl⟩

lemma exists_row_matches (db : DB) (f : Filters) (g : Grupo) :
    (∃ r ∈ rowsOfGrupo db g, rowMatches f r = true) ↔
      grupoSatisfies db f g = true := by
  have hg : ∀ r ∈ rowsOfGrupo db g, r.g = g := rowsOfGrupo_grupo db g
  unfold grupoSatisfies
  simp only [Bool.and_eq_true]
  constructor
  · rintro ⟨r, hr, hm⟩
    have he := hg r hr
    unfold rowMatches at hm
    simp only [Bool.and_eq_true] at hm
    obtain ⟨⟨⟨⟨hA, hI⟩, hY⟩, hB⟩, hC⟩ := hm
    rw [he] at hA hY hB hC
    exact ⟨⟨⟨⟨hA, (exists_row_inv_clause db f g).mp ⟨r, hr, hI⟩⟩, hY⟩, hB⟩, hC⟩
  · rintro ⟨⟨⟨⟨hA, hI⟩, hY⟩, hB⟩, hC⟩
    obtain ⟨r, hr, hIr⟩ := (exists_row_inv_clause db f g).mpr hI
    have he := hg r hr
    refine ⟨r, hr, ?_⟩
    unfold rowMatches
    simp only [Bool.and_eq_true]
    rw [he]
    exact ⟨⟨⟨⟨hA, hIr⟩, hY⟩, hB⟩, hC⟩

/-! membership of the filtered DISTINCT id set -/

lemma mem_leftJoinRows (db : DB) (r : Row) :
    r ∈ leftJoinRows db ↔ ∃ g ∈ db.grupos, r ∈ rowsOfGrupo db g := by
  unfold leftJoinRows
  simp [List.mem_flatMap]

lemma mem_searchFilteredIds (db : DB) (f : Filters) (a : Nat) :
    a ∈ searchFilteredIds db f ↔
      ∃ g ∈ db.grupos, g.idGrupo = a ∧ grupoSatisfies db f g = true := by
  unfold searchFilteredIds
  rw [List.mem_dedup, List.mem_map]
  constructor
  · rintro ⟨r, hr, hid⟩
    rw [List.mem_filter] at hr
    obtain ⟨hr, hm⟩ := hr
    obtain ⟨g, hg, hrg⟩ := (mem_leftJoinRows db r).mp hr
    have he := rowsOfGrupo_grupo db g r hrg
    refine ⟨g, hg, by rw [← he]; exact hid, ?_⟩
    exact (exists_row_matches db f g).mp ⟨r, hrg, hm⟩
  · rintro ⟨g, hg, hid, hs⟩
    obtain ⟨r, hr, hm⟩ := (exists_row_matches db f g).mpr hs
    refine ⟨r, ?_, ?_⟩
    · rw [List.mem_filter]
      exact ⟨(mem_leftJoinRows db r).mpr ⟨g, hg, hr⟩, hm⟩
    · rw [rowsOfGrupo_grupo db g r hr]
      exact hid

lemma grupo_id_inj (db : DB) (hWF : db.WF) {g1 g2 : Grupo}
    (h1 : g1 ∈ db.grupos) (h2 : g2 ∈ db.grupos)
    (h : g1.idGrupo = g2.idGrupo) : g1 = g2 :=
  List.inj_on_of_nodup_map hWF.1 h1 h2 h

lemma rowsOfGrupo_filter_self (db : DB) (g : Grupo) :
    (rowsOfGrupo db g).filter (fun r => r.g.idGrupo == g.idGrupo) =
      rowsOfGrupo db g := by
  apply List.filter_eq_self.mpr
  intro r hr
  have he := rowsOfGrupo_grupo db g r hr
  simp [he]

lemma rowsOfGrupo_filter_ne (db : DB) (g : Grupo) (n : Nat) (h : g.idGrupo ≠ n) :
    (rowsOfGrupo db g).filter (fun r => r.g.idGrupo == n) = [] := by
  apply List.filter_eq_nil_iff.mpr
  intro r hr
  have he := rowsOfGrupo_grupo db g r hr
  simp [he, h]

lemma filter_flatMap_rows (db : DB) (l : List Grupo) (g : Grupo)
    (hnd : (l.map Grupo.idGrupo).Nodup) (hg : g ∈ l) :
    (l.flatMap (rowsOfGrupo db)).filter (fun r => r.g.idGrupo == g.idGrupo) =
      rowsOfGrupo db g := by
  induction l with
  | nil => cases hg
  | cons a t ih =>
    rw [List.flatMap_cons, List.filter_append]
    rw [List.map_cons, List.nodup_cons] at hnd
    obtain ⟨hna, hnd⟩ := hnd
    rcases List.mem_cons.mp hg with rfl | hgt
    · rw [rowsOfGrupo_filter_self]
      have ht : (t.flatMap (rowsOfGrupo db)).filter
          (fun r => r.g.idGrupo == g.idGrupo) = [] := by
        apply List.filter_eq_nil_iff.mpr
        intro r hr
        obtain ⟨g2, hg2, hrg2⟩ := List.mem_flatMap.mp hr
        have he := rowsOfGrupo_grupo db g2 r hrg2
        have hne : g2.idGrupo ≠ g.idGrupo := by
          intro hcontra
          exact hna (by rw [← hcontra]; exact List.mem_map_of_mem _ hg2)
        simp [he, hne]
      rw [ht, List.append_nil]
    · have hne : a.idGrupo ≠ g.idGrupo := by
        intro hcontra
        exact hna (by rw [hcontra]; exact List.mem_map_of_mem _ hgt)
      rw [rowsOfGrupo_filter_ne db a g.idGrupo hne, List.nil_append]
      exact ih hnd hgt

lemma filter_leftJoinRows_eq (db : DB) (hWF : db.WF) (g : Grupo)
    (hg : g ∈ db.grupos) :
    (leftJoinRows db).filter (fun r => r.g.idGrupo == g.idGrupo) =
      rowsOfGrupo db g :=
  filter_flatMap_rows db db.grupos g hWF.1 hg

lemma searchPageIds_subset (db : DB) (f : Filters) (limit offset : Nat) :
    ∀ a ∈ searchPageIds db f limit offset, a ∈ searchFilteredIds db f := by
  intro a ha
  unfold searchPageIds at ha
  have h1 := List.mem_of_mem_take ha
  have h2 := List.mem_of_mem_drop h1
  exact ((List.perm_insertionSort _ _).mem_iff).mp h2

lemma searchFilteredIds_length (db : DB) (f : Filters) (hWF : db.WF) :
    (searchFilteredIds db f).length =
      (db.grupos.filter (fun g => grupoSatisfies db f g)).length := by
  have hnd1 : (searchFilteredIds db f).Nodup := by
    unfold searchFilteredIds
    exact List.nodup_dedup _
  have hnd2 : ((db.grupos.filter (fun g => grupoSatisfies db f g)).map
      Grupo.idGrupo).Nodup :=
    hWF.1.sublist ((List.filter_sublist _).map Grupo.idGrupo)
  have hset : (searchFilteredIds db f).toFinset =
      ((db.grupos.filter (fun g => grupoSatisfies db f g)).map
        Grupo.idGrupo).toFinset := by
    ext a
    simp only [List.mem_toFinset, mem_searchFilteredIds, List.mem_map,
      List.mem_filter]
    constructor
    · rintro ⟨g, hg, hid, hs⟩
      exact ⟨g, ⟨hg, hs⟩, hid⟩
    · rintro ⟨g, ⟨hg, hs⟩, hid⟩
      exact ⟨g, hg, hid, hs⟩
  calc (searchFilteredIds db f).length
      = (searchFilteredIds db f).toFinset.card :=
        (List.toFinset_card_of_nodup hnd1).symm
    _ = ((db.grupos.filter (fun g => grupoSatisfies db f g)).map
          Grupo.idGrupo).toFinset.card := by rw [hset]
    _ = ((db.grupos.filter (fun g => grupoSatisfies db f g)).map
          Grupo.idGrupo).length := List.toFinset_card_of_nodup hnd2
    _ = (db.grupos.filter (fun g => grupoSatisfies db f g)).length :=
        List.length_map _ _

/-! detail rows restricted to one paginated group id -/

lemma filter_detail_rows_perm (db : DB) (hWF : db.WF)
    (le : Row → Row → Prop) [DecidableRel le] (ids : List Nat)
    (g : Grupo) (hg : g ∈ db.grupos) (hid : g.idGrupo ∈ ids) :
    ((List.insertionSort le ((leftJoinRows db).filter
        (fun r => ids.contains r.g.idGrupo))).filter
      (fun r => r.g.idGrupo == g.idGrupo)).Perm (rowsOfGrupo db g) := by
  have h1 : (List.insertionSort le ((leftJoinRows db).filter
      (fun r => ids.contains r.g.idGrupo))).Perm
      ((leftJoinRows db).filter (fun r => ids.contains r.g.idGrupo)) :=
    List.perm_insertionSort le _
  have h2 := h1.filter (fun r => r.g.idGrupo == g.idGrupo)
  have h3 : ((leftJoinRows db).filter
        (fun r => ids.contains r.g.idGrupo)).filter
      (fun r => r.g.idGrupo == g.idGrupo) =
      (leftJoinRows db).filter (fun r => r.g.idGrupo == g.idGrupo) := by
    rw [List.filter_filter]
    apply List.filter_congr
    intro r _
    cases hc : (r.g.idGrupo == g.idGrupo)
    · simp
    · have hm : r.g.idGrupo ∈ ids := by
        rw [beq_iff_eq.mp hc]
        exact hid
      simp [hc, hm]
  rw [h3, filter_leftJoinRows_eq db hWF g hg] at h2
  exact h2

lemma collapse_mem_facts (db : DB) (d : Bool)
    (le : Row → Row → Prop) [DecidableRel le] (ids : List Nat)
    (gw : GrupoWithInvestigadores)
    (hgw : gw ∈ collapseRows d (List.insertionSort le
      ((leftJoinRows db).filter (fun r => ids.contains r.g.idGrupo)))) :
    gw.grupo ∈ db.grupos ∧ gw.grupo.idGrupo ∈ ids ∧
      gw.investigadores = entrySpec d
        ((List.insertionSort le ((leftJoinRows db).filter
          (fun r => ids.contains r.g.idGrupo))).filter
            (fun r => r.g.idGrupo == gw.grupo.idGrupo)) := by
  obtain ⟨-, -, h3⟩ := collapseRows_inv d (List.insertionSort le
    ((leftJoinRows db).filter (fun r => ids.contains r.g.idGrupo)))
  obtain ⟨hinv, r, hr, hrg⟩ := h3 gw hgw
  have hrmem : r ∈ (leftJoinRows db).filter
      (fun r => ids.contains r.g.idGrupo) :=
    ((List.perm_insertionSort le _).mem_iff).mp hr
  rw [List.mem_filter] at hrmem
  obtain ⟨hrl, hrc⟩ := hrmem
  obtain ⟨g0, hg0, hrg0⟩ := (mem_leftJoinRows db r).mp hrl
  have he := rowsOfGrupo_grupo db g0 r hrg0
  have hgg : gw.grupo = g0 := by rw [← hrg, he]
  refine ⟨by rw [hgg]; exact hg0, ?_, hinv⟩
  rw [hrg] at hrc
  simpa using hrc

lemma collapse_search_entries (db : DB) (hWF : db.WF)
    (le : Row → Row → Prop) [DecidableRel le] (ids : List Nat)
    (gw : GrupoWithInvestigadores)
    (hgw : gw ∈ collapseRows false (List.insertionSort le
      ((leftJoinRows db).filter (fun r => ids.contains r.g.idGrupo)))) :
    gw.grupo ∈ db.grupos ∧ gw.grupo.idGrupo ∈ ids ∧
      gw.investigadores.Perm (fullEntries db gw.grupo.idGrupo) := by
  obtain ⟨hgm, hidm, hinv⟩ := collapse_mem_facts db false le ids gw hgw
  refine ⟨hgm, hidm, ?_⟩
  have hperm := filter_detail_rows_perm db hWF le ids gw.grupo hgm hidm
  have h1 := hperm.filterMap Row.entry?
  rw [filterMap_entry_rowsOfGrupo db gw.grupo] at h1
  rw [hinv]
  unfold entrySpec
  simpa using h1

lemma collapse_dedup_entries (db : DB) (hWF : db.WF)
    (le : Row → Row → Prop) [DecidableRel le] (ids : List Nat)
    (gw : GrupoWithInvestigadores)
    (hgw : gw ∈ collapseRows true (List.insertionSort le
      ((leftJoinRows db).filter (fun r => ids.contains r.g.idGrupo)))) :
    gw.grupo ∈ db.grupos ∧ gw.grupo.idGrupo ∈ ids ∧
      (gw.investigadores.map InvestigadorConRol.id).Nodup ∧
      gw.investigadores.length =
        ((fullEntries db gw.grupo.idGrupo).map
          InvestigadorConRol.id).dedup.length := by
  obtain ⟨hgm, hidm, hinv⟩ := collapse_mem_facts db true le ids gw hgw
  have hperm := filter_detail_rows_perm db hWF le ids gw.grupo hgm hidm
  have h1 := hperm.filterMap Row.entry?
  rw [filterMap_entry_rowsOfGrupo db gw.grupo] at h1
  have hinv2 : gw.investigadores = dedupByKey InvestigadorConRol.id
      (((List.insertionSort le ((leftJoinRows db).filter
        (fun r => ids.contains r.g.idGrupo))).filter
          (fun r => r.g.idGrupo == gw.grupo.idGrupo)).filterMap Row.entry?) := by
    rw [hinv]; unfold entrySpec; simp
  refine ⟨hgm, hidm, ?_, ?_⟩
  · rw [hinv2]
    exact nodup_map_dedupByKey InvestigadorConRol.id _
  · rw [hinv2, length_dedupByKey]
    exact ((h1.map InvestigadorConRol.id).dedup).length_eq

lemma map_gid_filterMap_find (L : List GrupoWithInvestigadores)
    (ids : List Nat) :
    (ids.filterMap (fun id => L.find?
        (fun gw => gw.grupo.idGrupo == id))).map
        (fun gw => gw.grupo.idGrupo) =
      ids.filter (fun id => (L.find?
        (fun gw => gw.grupo.idGrupo == id)).isSome) := by
  induction ids with
  | nil => rfl
  | cons a t ih =>
    rw [List.filterMap_cons, List.filter_cons]
    cases hf : L.find? (fun gw => gw.grupo.idGrupo == a) with
    | none => simpa [hf] using ih
    | some gw =>
      have hga : gw.grupo.idGrupo = a := by
        have := List.find?_some hf
        simpa using this
      simp [hf, hga, ih]

/-! branch equations of the two aggregation entry points -/

lemma SearchGrupos_eq_zero (db : DB) (f : Filters) (limit offset : Nat)
    (h0 : (searchFilteredIds db f).length = 0) :
    SearchGrupos db f limit offset = ([], 0) := by
  simp only [SearchGrupos]
  rw [if_pos h0]

lemma SearchGrupos_eq_pos (db : DB) (f : Filters) (limit offset : Nat)
    (h0 : (searchFilteredIds db f).length ≠ 0) :
    SearchGrupos db f limit offset =
      (collapseRows false (searchDetailRows db
        (searchPageIds db f limit offset)),
       (searchFilteredIds db f).length) := by
  simp only [SearchGrupos]
  rw [if_neg h0]

/-- C1: for every filter combination and page, the totalItems value returned
by SearchGrupos equals the number of distinct stored groups satisfying all
active filters (a group with several linked investigators still counts
once), provided the store is well formed (no duplicate group ids). -/
theorem search_totalItems_counts_distinct_groups (db : DB) (f : Filters)
    (limit offset : Nat) (hWF : db.WF) :
    (SearchGrupos db f limit offset).2 =
      (db.grupos.filter (fun g => grupoSatisfies db f g)).length := by
  have hlen := searchFilteredIds_length db f hWF
  by_cases h0 : (searchFilteredIds db f).length = 0
  · rw [SearchGrupos_eq_zero db f limit offset h0]
    rw [← hlen, h0]
  · rw [SearchGrupos_eq_pos db f limit offset h0]
    exact hlen

theorem search_totalItems_counts_distinct_groups_witness :
    dbScenario.WF ∧
      (SearchGrupos dbScenario (investigadorFilter "ana") 10 0).2 =
        (dbScenario.grupos.filter
          (fun g => grupoSatisfies dbScenario (investigadorFilter "ana")
            g)).length :=
  ⟨by decide, search_totalItems_counts_distinct_groups dbScenario
    (investigadorFilter "ana") 10 0 (by decide)⟩

/-- C3: filters only select which groups qualify for the page; every
returned group is a stored group satisfying all active filters and carries
all of its investigator relationships (not only the matching ones), and
every stored group whose id made the requested page is returned. -/
theorem search_returns_all_relationships (db : DB) (f : Filters)
    (limit offset : Nat) (hWF : db.WF) :
    (∀ gw ∈ (SearchGrupos db f limit offset).1,
        gw.grupo ∈ db.grupos ∧ grupoSatisfies db f gw.grupo = true ∧
        gw.investigadores.Perm (fullEntries db gw.grupo.idGrupo)) ∧
    (∀ g ∈ db.grupos, g.idGrupo ∈ searchPageIds db f limit offset →
        ∃ gw ∈ (SearchGrupos db f limit offset).1, gw.grupo = g) := by
  by_cases h0 : (searchFilteredIds db f).length = 0
  · constructor
    · intro gw hgw
      rw [SearchGrupos_eq_zero db f limit offset h0] at hgw
      simp at hgw
    · intro g hg hpid
      exfalso
      have hmem := searchPageIds_subset db f limit offset _ hpid
      have hnil : searchFilteredIds db f = [] := List.length_eq_zero.mp h0
      rw [hnil] at hmem
      simp at hmem
  · have hitems : (SearchGrupos db f limit offset).1 =
        collapseRows false (searchDetailRows db
          (searchPageIds db f limit offset)) := by
      rw [SearchGrupos_eq_pos db f limit offset h0]
    constructor
    · intro gw hgw
      rw [hitems] at hgw
      unfold searchDetailRows at hgw
      obtain ⟨hgm, hidm, hperm⟩ := collapse_search_entries db hWF RowLE
        (searchPageIds db f limit offset) gw hgw
      refine ⟨hgm, ?_, hperm⟩
      have hfid := searchPageIds_subset db f limit offset _ hidm
      obtain ⟨g1, hg1, hid1, hs1⟩ := (mem_searchFilteredIds db f _).mp hfid
      have hgg : g1 = gw.grupo := grupo_id_inj db hWF hg1 hgm hid1
      rw [← hgg]
      exact hs1
    · intro g hg hpid
      rw [hitems]
      unfold searchDetailRows
      obtain ⟨r0, hr0⟩ := List.exists_mem_of_ne_nil _ (rowsOfGrupo_ne_nil db g)
      have her0 := rowsOfGrupo_grupo db g r0 hr0
      have hr0f : r0 ∈ (leftJoinRows db).filter
          (fun r => (searchPageIds db f limit offset).contains r.g.idGrupo) := by
        rw [List.mem_filter]
        refine ⟨(mem_leftJoinRows db r0).mpr ⟨g, hg, hr0⟩, ?_⟩
        rw [her0]
        simpa using hpid
      have hr0s : r0 ∈ List.insertionSort RowLE ((leftJoinRows db).filter
          (fun r => (searchPageIds db f limit offset).contains r.g.idGrupo)) :=
        ((List.perm_insertionSort RowLE _).mem_iff).mpr hr0f
      obtain ⟨-, h2, h3⟩ := collapseRows_inv false (List.insertionSort RowLE
        ((leftJoinRows db).filter
          (fun r => (searchPageIds db f limit offset).contains r.g.idGrupo)))
      obtain ⟨gw, hgw, hgid⟩ := (h2 g.idGrupo).mpr
        (List.mem_map.mpr ⟨r0, hr0s, by rw [her0]⟩)
      refine ⟨gw, hgw, ?_⟩
      obtain ⟨-, r1, hr1, hr1g⟩ := h3 gw hgw
      have hr1f := ((List.perm_insertionSort RowLE _).mem_iff).mp hr1
      rw [List.mem_filter] at hr1f
      obtain ⟨g0, hg0, hr1g0⟩ := (mem_leftJoinRows db r1).mp hr1f.1
      have hgw0 : gw.grupo = g0 := by
        rw [← hr1g, rowsOfGrupo_grupo db g0 r1 hr1g0]
      rw [hgw0]
      refine grupo_id_inj db hWF hg0 hg ?_
      rw [← hgw0]
      exact hgid

theorem search_returns_all_relationships_witness :
    dbScenario.WF ∧
      ((∀ gw ∈ (SearchGrupos dbScenario (investigadorFilter "ana") 10 0).1,
          gw.grupo ∈ dbScenario.grupos ∧
          grupoSatisfies dbScenario (investigadorFilter "ana") gw.grupo = true ∧
          gw.investigadores.Perm (fullEntries dbScenario gw.grupo.idGrupo)) ∧
        (∀ g ∈ dbScenario.grupos,
          g.idGrupo ∈ searchPageIds dbScenario (investigadorFilter "ana") 10 0 →
          ∃ gw ∈ (SearchGrupos dbScenario (investigadorFilter "ana") 10 0).1,
            gw.grupo = g)) :=
  ⟨by decide, search_returns_all_relationships dbScenario
    (investigadorFilter "ana") 10 0 (by decide)⟩

lemma GetAll_eq_zero (db : DB) (limit offset : Nat)
    (h0 : db.grupos.length = 0) :
    GetAllGruposWithDetails db limit offset = ([], 0) := by
  simp only [GetAllGruposWithDetails]
  rw [if_pos h0]

lemma GetAll_eq_empty_page (db : DB) (limit offset : Nat)
    (h0 : db.grupos.length ≠ 0)
    (h1 : ((((List.insertionSort GrupoLE db.grupos).map Grupo.idGrupo).drop
        offset).take limit).isEmpty = true) :
    GetAllGruposWithDetails db limit offset = ([], db.grupos.length) := by
  simp only [GetAllGruposWithDetails]
  rw [if_neg h0, if_pos h1]

lemma GetAll_eq_pos (db : DB) (limit offset : Nat)
    (h0 : db.grupos.length ≠ 0)
    (h1 : ((((List.insertionSort GrupoLE db.grupos).map Grupo.idGrupo).drop
        offset).take limit).isEmpty = false) :
    GetAllGruposWithDetails db limit offset =
      (((((List.insertionSort GrupoLE db.grupos).map Grupo.idGrupo).drop
          offset).take limit).filterMap
        (fun id => (collapseRows true (List.insertionSort RowLE2
          ((leftJoinRows db).filter
            (fun r => ((((List.insertionSort GrupoLE db.grupos).map
              Grupo.idGrupo).drop offset).take limit).contains
                r.g.idGrupo)))).find?
          (fun gw => gw.grupo.idGrupo == id)),
       db.grupos.length) := by
  simp only [GetAllGruposWithDetails]
  rw [if_neg h0, if_neg (by simp [h1])]

/-- C2 counterexample: the collapse loop of SearchGrupos has no per-group
dedup guard: with one group, one stored investigator and two duplicate link
rows, the returned group carries two entries with the same investigator
id. -/
theorem search_collapse_no_dedup_counterexample :
    (SearchGrupos dbDupLink (grupoFilter "Grupo") 10 0).1.map
        (fun gw => gw.investigadores.map InvestigadorConRol.id) = [[1, 1]] ∧
      ¬ (∀ gw ∈ (SearchGrupos dbDupLink (grupoFilter "Grupo") 10 0).1,
          (gw.investigadores.map InvestigadorConRol.id).Nodup) := by
  decide

/-- C2 (amended): each group appears at most once in a returned page of
either aggregation; GetAllGruposWithDetails deduplicates each group's
entries by investigator id (the entry list carries exactly the distinct
linked investigator ids), while SearchGrupos appends one entry per join row
with no dedup guard (the entry list length equals the join-row count). -/
theorem collapse_dedup_only_in_plain_listing (db : DB) (f : Filters)
    (limit offset : Nat) (hWF : db.WF) :
    ((((GetAllGruposWithDetails db limit offset).1.map
        (fun gw => gw.grupo.idGrupo)).Nodup) ∧
      (∀ gw ∈ (GetAllGruposWithDetails db limit offset).1,
        (gw.investigadores.map InvestigadorConRol.id).Nodup ∧
        gw.investigadores.length =
          ((fullEntries db gw.grupo.idGrupo).map
            InvestigadorConRol.id).dedup.length)) ∧
    ((((SearchGrupos db f limit offset).1.map
        (fun gw => gw.grupo.idGrupo)).Nodup) ∧
      (∀ gw ∈ (SearchGrupos db f limit offset).1,
        gw.investigadores.length =
          (fullEntries db gw.grupo.idGrupo).length)) := by
  constructor
  · by_cases h0 : db.grupos.length = 0
    · rw [GetAll_eq_zero db limit offset h0]
      exact ⟨List.nodup_nil, fun gw hgw => absurd hgw (List.not_mem_nil gw)⟩
    · by_cases h1 : ((((List.insertionSort GrupoLE db.grupos).map
          Grupo.idGrupo).drop offset).take limit).isEmpty = true
      · rw [GetAll_eq_empty_page db limit offset h0 h1]
        exact ⟨List.nodup_nil, fun gw hgw => absurd hgw (List.not_mem_nil gw)⟩
      · have h1f : ((((List.insertionSort GrupoLE db.grupos).map
            Grupo.idGrupo).drop offset).take limit).isEmpty = false := by
          cases hb : ((((List.insertionSort GrupoLE db.grupos).map
              Grupo.idGrupo).drop offset).take limit).isEmpty
          · rfl
          · exact absurd hb h1
        have hitems : (GetAllGruposWithDetails db limit offset).1 =
            ((((List.insertionSort GrupoLE db.grupos).map Grupo.idGrupo).drop
                offset).take limit).filterMap
              (fun id => (collapseRows true (List.insertionSort RowLE2
                ((leftJoinRows db).filter
                  (fun r => ((((List.insertionSort GrupoLE db.grupos).map
                    Grupo.idGrupo).drop offset).take limit).contains
                      r.g.idGrupo)))).find?
                (fun gw => gw.grupo.idGrupo == id)) := by
          rw [GetAll_eq_pos db limit offset h0 h1f]
        rw [hitems]
        constructor
        · rw [map_gid_filterMap_find]
          apply List.Nodup.filter
          have hnd : (((List.insertionSort GrupoLE db.grupos).map
              Grupo.idGrupo)).Nodup :=
            (((List.perm_insertionSort GrupoLE db.grupos).map
              Grupo.idGrupo).nodup_iff).mpr hWF.1
          exact (hnd.sublist (List.drop_sublist _ _)).sublist
            (List.take_sublist _ _)
        · intro gw hgw
          obtain ⟨id, hid, hf⟩ := List.mem_filterMap.mp hgw
          have hgwc := List.mem_of_find?_eq_some hf
          obtain ⟨-, -, hnd, hlen⟩ := collapse_dedup_entries db hWF RowLE2
            ((((List.insertionSort GrupoLE db.grupos).map Grupo.idGrupo).drop
              offset).take limit) gw hgwc
          exact ⟨hnd, hlen⟩
  · by_cases h0 : (searchFilteredIds db f).length = 0
    · rw [SearchGrupos_eq_zero db f limit offset h0]
      exact ⟨List.nodup_nil, fun gw hgw => absurd hgw (List.not_mem_nil gw)⟩
    · have hitems : (SearchGrupos db f limit offset).1 =
          collapseRows false (searchDetailRows db
            (searchPageIds db f limit offset)) := by
        rw [SearchGrupos_eq_pos db f limit offset h0]
      rw [hitems]
      constructor
      · obtain ⟨hnd, -, -⟩ := collapseRows_inv false (searchDetailRows db
          (searchPageIds db f limit offset))
        exact hnd
      · intro gw hgw
        unfold searchDetailRows at hgw
        obtain ⟨-, -, hperm⟩ := collapse_search_entries db hWF RowLE
          (searchPageIds db f limit offset) gw hgw
        exact hperm.length_eq

theorem collapse_dedup_only_in_plain_listing_witness :
    dbDupLink.WF ∧
      (((((GetAllGruposWithDetails dbDupLink 10 0).1.map
          (fun gw => gw.grupo.idGrupo)).Nodup) ∧
        (∀ gw ∈ (GetAllGruposWithDetails dbDupLink 10 0).1,
          (gw.investigadores.map InvestigadorConRol.id).Nodup ∧
          gw.investigadores.length =
            ((fullEntries dbDupLink gw.grupo.idGrupo).map
              InvestigadorConRol.id).dedup.length)) ∧
      ((((SearchGrupos dbDupLink (grupoFilter "Grupo") 10 0).1.map
          (fun gw => gw.grupo.idGrupo)).Nodup) ∧
        (∀ gw ∈ (SearchGrupos dbDupLink (grupoFilter "Grupo") 10 0).1,
          gw.investigadores.length =
            (fullEntries dbDupLink gw.grupo.idGrupo).length))) :=
  ⟨by decide, collapse_dedup_only_in_plain_listing dbDupLink
    (grupoFilter "Grupo") 10 0 (by decide)⟩

end ApiGrupos
